import Mathlib

/-!
Verification development for the dynamic query-construction engine in
`frappe/database/query.py`. The Python source is shallowly embedded:
Engine methods that mutate `self.query` become pure functions threading an
explicit `Query` value, Python exceptions become `Except PyErr`, and the
external collaborators (metadata, permissions, sharing, settings, the
nested-set table) become fields of an explicit environment `Env`.

Definitions are translated directly from the source file; the handful of
helpers the source imports from repository modules that are not available
(`frappe.database.schema`, `frappe.database.operator_map`,
`frappe.database.utils`, `frappe.model`, the SQL-function registry and the
comment stripper) are modelled from the specification and carry a
`Modelled from the spec:` doc comment.
-/

/-- Python exception classes that the engine can raise, collapsed to the
classes relevant to the control flow of `query.py`: `frappe.throw` with no
explicit class raises a validation error, `frappe.PermissionError` is the
permission class, and `AttributeError` / `ValueError` / `KeyError` /
`TypeError` arise from attribute access on `None`, tuple unpacking,
missing operator keys and bad argument types respectively. -/
inductive PyErr
  | validationError
  | permissionError
  | typeError
  | valueError
  | attributeError
  | keyError
deriving DecidableEq, Repr

/-- Python values appearing as filter values: strings, ints, bools, `None`
and (possibly nested) lists/tuples. -/
inductive PyVal
  | s (v : String)
  | i (v : Int)
  | b (v : Bool)
  | none
  | list (vs : List PyVal)

/-- The backtick character, written by code point. -/
def backtick : Char := Char.ofNat 96

/-- ASCII `\w` as used by the source's `re.ASCII` patterns. -/
def isWordChar (c : Char) : Bool := c.isAlphanum || c == '_'

/-- A nonempty all-word-character string (`\w+`). -/
def isWordStr (s : String) : Bool := !s.data.isEmpty && s.data.all isWordChar

/-- Python `str.isdigit` (empty string is not a digit string). -/
def isDigitStr (s : String) : Bool := !s.data.isEmpty && s.data.all Char.isDigit

/-- Python `str.capitalize`: first character uppercased, the rest
lowercased. -/
def pyCapitalize (s : String) : String :=
  match s.toList with
  | [] => ""
  | c :: rest => (c.toUpper :: rest.map Char.toLower).asString

/-- Prefix test on character lists (the string primitives below are
implemented over `List Char` so that they compute by structural
recursion). -/
def isPrefixList : List Char → List Char → Bool
  | [], _ => true
  | _ :: _, [] => false
  | a :: as, b :: bs => a == b && isPrefixList as bs

/-- Substring test on character lists. -/
def containsSubList : List Char → List Char → Bool
  | [], sub => sub.isEmpty
  | c :: rest, sub => isPrefixList sub (c :: rest) || containsSubList rest sub

/-- Substring test, Python `sub in s`. -/
def strContains (s sub : String) : Bool := containsSubList s.data sub.data

/-- Split on a non-empty separator, Python `str.split(sep)` semantics
(non-overlapping, left to right). The fuel argument, initialised to the
input length, makes the recursion structural; every step consumes at
least one character, so the fuel never runs out. -/
def splitOnListFuel (sep : List Char) :
    Nat → List Char → List Char → List (List Char)
  | _, [], acc => [acc.reverse]
  | 0, cs, acc => [acc.reverse ++ cs]
  | Nat.succ n, c :: rest, acc =>
    if isPrefixList sep (c :: rest) then
      acc.reverse :: splitOnListFuel sep n (rest.drop (sep.length - 1)) []
    else splitOnListFuel sep n rest (c :: acc)

/-- `String.splitOn` re-implemented over character lists (an empty
separator returns the string whole, as in core). -/
def pySplitOn (s sep : String) : List String :=
  match sep.data with
  | [] => [s]
  | s0 :: srest =>
    (splitOnListFuel (s0 :: srest) s.data.length s.data []).map List.asString

/-- Split at every character satisfying `p` (empty pieces kept). -/
def splitByPredAux (p : Char → Bool) : List Char → List Char → List (List Char)
  | [], acc => [acc.reverse]
  | c :: rest, acc =>
    if p c then acc.reverse :: splitByPredAux p rest []
    else splitByPredAux p rest (c :: acc)

/-- Lowercasing over character data. -/
def pyToLower (s : String) : String := (s.data.map Char.toLower).asString

/-- Whitespace trim over character data, Python `str.strip()`. -/
def pyTrim (s : String) : String :=
  (((s.data.dropWhile Char.isWhitespace).reverse.dropWhile
    Char.isWhitespace).reverse).asString

/-- Prefix test, Python `str.startswith`. -/
def pyStartsWith (s pre : String) : Bool := isPrefixList pre.data s.data

/-- Drop the first `n` characters. -/
def pyDrop (s : String) (n : Nat) : String := (s.data.drop n).asString

/-- Remove every backtick, Python `str.replace("`", "")`. -/
def pyRemoveBackticks (s : String) : String :=
  (s.data.filter (fun c => c != backtick)).asString

/-- Whitespace-split as Python `str.split()` with no argument: split on
whitespace runs, dropping empty pieces. -/
def wsTokens (s : String) : List String :=
  ((splitByPredAux Char.isWhitespace s.data []).map List.asString).filter
    (fun t => !(t == ""))

/-- Modelled from the spec: `SPECIAL_CHAR_PATTERN` from the missing
`frappe.database.schema` module. Per the spec it detects any character
outside the plain-identifier alphabet `[A-Za-z0-9_]`; `search` succeeds
when at least one such character is present. -/
def specialCharSearch (s : String) : Bool := !s.data.all isWordChar

/-- `TABLE_NAME_PATTERN = ^[\w -]*$` (ASCII). -/
def tableNamePattern (s : String) : Bool :=
  s.data.all (fun c => isWordChar c || c == ' ' || c == '-')

/-- Strip one optional leading quote character (backtick or double quote),
the `[`\"]?` pieces of the source regexes. -/
def stripLeadQuote (cs : List Char) : List Char :=
  match cs with
  | [] => []
  | x :: rest => if x == backtick || x == '"' then rest else x :: rest

/-- Strip one optional quote character from each end of a token. -/
def quoteTokInner (s : String) : String :=
  ((stripLeadQuote (stripLeadQuote s.toList).reverse).reverse).asString

/-- One identifier token of `ALLOWED_SQL_FIELD_PATTERN`: `` `?\w+`? ``
(an optional backtick on either side, independently, around `\w+`). -/
def matchIdentTok (s : String) : Bool :=
  let cs := s.toList
  let cs := match cs with
    | [] => []
    | x :: rest => if x == backtick then rest else x :: rest
  let cs := match cs.reverse with
    | [] => []
    | x :: rest => if x == backtick then (x :: rest).reverse.dropLast else cs
  !cs.isEmpty && cs.all isWordChar

/-- `ALLOWED_SQL_FIELD_PATTERN = ^(?:`?\w+`?\.)?(`?\w+`?|\w+)$`: a field
token, optionally preceded by a table token and a dot. Neither token can
contain a dot, so the match splits on the dot. -/
def allowedSqlFieldPattern (s : String) : Bool :=
  match pySplitOn s "." with
  | [one] => matchIdentTok one
  | [t, f] => matchIdentTok t && matchIdentTok f
  | _ => false

/-- `ALLOWED_FIELD_PATTERN`: the clause-field pattern optionally followed
by `\s+as\s+\w+` (case-sensitive `as`, ASCII). The base and alias tokens
contain no whitespace, so whitespace tokenisation is exact; the anchors
reject leading/trailing whitespace. -/
def allowedFieldPattern (s : String) : Bool :=
  match s.toList with
  | [] => false
  | c :: rest =>
    if c.isWhitespace || ((c :: rest).getLast (by simp)).isWhitespace then false
    else
      match wsTokens s with
      | [base] => allowedSqlFieldPattern base
      | [base, kw, al] => kw == "as" && allowedSqlFieldPattern base && isWordStr al
      | _ => false

/-- Strip a trailing `\s+as\s+\w+` (case-insensitive `as`), returning the
part before it, used by `FUNCTION_CALL_PATTERN`. -/
def stripAliasCI (s : String) : Option String :=
  let cs := s.toList.reverse
  let w := cs.takeWhile isWordChar
  let cs1 := cs.dropWhile isWordChar
  if w.isEmpty then Option.none
  else
    let ws1 := cs1.takeWhile Char.isWhitespace
    let cs2 := cs1.dropWhile Char.isWhitespace
    if ws1.isEmpty then Option.none
    else
      match cs2 with
      | sC :: aC :: rest =>
        if (sC == 's' || sC == 'S') && (aC == 'a' || aC == 'A') then
          let ws2 := rest.takeWhile Char.isWhitespace
          if ws2.isEmpty then Option.none
          else Option.some ((rest.dropWhile Char.isWhitespace).reverse.asString)
        else Option.none
      | _ => Option.none

/-- Core of `FUNCTION_CALL_PATTERN` without the alias: `^\w+\(.*\)$`. -/
def funcCallCore (s : String) : Bool :=
  let cs := s.toList
  let w := cs.takeWhile isWordChar
  let rest := cs.dropWhile isWordChar
  !w.isEmpty &&
    (match rest with
     | [] => false
     | c :: tail => c == '(' && !tail.isEmpty && (c :: tail).getLast (by simp) == ')')

/-- `FUNCTION_CALL_PATTERN = ^\w+\(.*\)(?:\s+as\s+\w+)?$` (IGNORECASE). -/
def functionCallPattern (s : String) : Bool :=
  funcCallCore s ||
    (match stripAliasCI s with
     | Option.some base => funcCallCore base
     | Option.none => false)

/-- `FIELD_PARSE_REGEX = ^(?:[`\"]?(tab\w+)[`\"]?\.)?[`\"]?(\w+)[`\"]?$`.
Returns `(optional table group, field group)` on a match. Neither token
can contain a dot, so the match splits on the dot. -/
def fieldParseRegexMatch (s : String) : Option (Option String × String) :=
  match pySplitOn s "." with
  | [one] =>
    let f := quoteTokInner one
    if isWordStr f then Option.some (Option.none, f) else Option.none
  | [t, fl] =>
    let ti := quoteTokInner t
    let fi := quoteTokInner fl
    if pyStartsWith ti "tab" && isWordStr (pyDrop ti 3) && isWordStr fi then
      Option.some (Option.some ti, fi)
    else Option.none
  | _ => Option.none

/-- Modelled from the spec: the physical-table naming convention of the
missing `frappe.query_builder` `DocType` helper — prefix the entity name
with `tab` (idempotently, so already-prefixed physical names and system
tables pass through). -/
def docTypeTable (name : String) : String :=
  if pyStartsWith name "tab" || pyStartsWith name "__" then name
  else "tab" ++ name

/-- Modelled from the spec: `get_doctype_name` from the missing
`frappe.database.utils` module — recover the entity name from a physical
table name by removing the `tab` prefix. -/
def get_doctype_name (tableSql : String) : String :=
  if pyStartsWith tableSql "tab" then pyDrop tableSql 3 else tableSql

/-- Modelled from the spec: `DefaultOrderBy` sentinel from the missing
`frappe.database.utils` module. -/
def DefaultOrderBy : String := "KEEP_DEFAULT_ORDERING"

/-- Modelled from the spec: the child-collection ("table") field types
from the missing `frappe.model` module. -/
def table_fields : List String := ["Table", "Table MultiSelect"]

/-- Modelled from the spec: `NESTED_SET_OPERATORS` from the missing
`frappe.database.operator_map` module — the five hierarchy operators the
spec lists. -/
def NESTED_SET_OPERATORS : List String :=
  ["descendants of", "ancestors of", "descendants of (inclusive)",
   "not descendants of", "not ancestors of"]

/-- Modelled from the spec: the keys of `OPERATOR_MAP` from the missing
`frappe.database.operator_map` module — the comparison/set operators the
engine dispatches on (looked up after `casefold`). -/
def OPERATOR_MAP_KEYS : List String :=
  ["=", "!=", "<", ">", "<=", ">=", "in", "not in", "like", "not like",
   "is", "between"]

/-- Modelled from the spec: value normalization (`convert_to_value` from
the missing `frappe.database.utils` module): primitives pass through
unchanged and collections keep their elements, so on this value model it
is the identity, kept as a named definition to mirror the call sites. -/
def convert_to_value (v : PyVal) : PyVal := v

/-- Python truthiness test used by `_apply_filter`: the value is an empty
collection (`not _value and isinstance(_value, list | tuple | set)`). -/
def isEmptyCollectionVal : PyVal → Bool
  | .list [] => true
  | _ => false

/-- Membership of a value in the `FilterValue` type alias of the missing
`frappe.database.utils` module (scalar primitives; not `None`, not a
collection), modelled from the spec's filter grammar. -/
def isFilterValue : PyVal → Bool
  | .s _ => true
  | .i _ => true
  | .b _ => true
  | _ => false

/-- Remove `/* ... */` blocks from a character list (the flag records
being inside a comment; an unterminated comment loses the rest of the
string). -/
def stripBlockCommentsAux : Bool → List Char → List Char
  | _, [] => []
  | false, '/' :: '*' :: rest => stripBlockCommentsAux true rest
  | true, '*' :: '/' :: rest => stripBlockCommentsAux false rest
  | false, c :: rest => c :: stripBlockCommentsAux false rest
  | true, _ :: rest => stripBlockCommentsAux true rest

/-- Remove `/* ... */` blocks. -/
def stripBlockCommentsList (cs : List Char) : List Char :=
  stripBlockCommentsAux false cs

/-- Remove `-- ...` and `# ...` line comments (fields are single-line). -/
def stripLineCommentsList : List Char → List Char
  | [] => []
  | '-' :: '-' :: _ => []
  | '#' :: _ => []
  | c :: rest => c :: stripLineCommentsList rest

/-- Modelled from the spec: the comment stripping performed by
`sqlparse.format(field, strip_comments=True, ...)` together with the
`MARIADB_SPECIFIC_COMMENT` removal (from the missing `frappe.utils.data`):
SQL block and line comments are removed (keyword lowercasing is not
modelled; the claims evaluate it only on comment-free identifiers). -/
def strip_comments (s : String) : String :=
  (stripLineCommentsList (stripBlockCommentsList s.data)).asString

/-- `COMMA_PATTERN = ,\s*(?![^()]*\))`: split on commas that are not
inside parentheses (a comma whose next parenthesis character ahead is a
closing one is kept). Unlike the regex the splitter does not consume the
whitespace after the comma; every consumer strips the pieces afterwards. -/
def commaSplitCore : List Char → List Char → List (List Char)
  | [], acc => [acc.reverse]
  | ',' :: rest, acc =>
    if (rest.find? (fun c => c == '(' || c == ')')) == Option.some ')' then
      commaSplitCore rest (',' :: acc)
    else
      acc.reverse :: commaSplitCore rest []
  | c :: rest, acc => commaSplitCore rest (c :: acc)

/-- String version of the `COMMA_PATTERN` split. -/
def commaSplit (s : String) : List String :=
  (commaSplitCore s.toList []).map List.asString

/-- One field row of an entity's metadata (`DocField`): the attributes
`query.py` reads — `fieldname`, `fieldtype`, `options` (the linked or
child entity) and the `ignore_user_permissions` flag. -/
structure DocField where
  fieldname : String
  fieldtype : String
  options : String
  ignore_user_permissions : Bool
deriving DecidableEq, Repr

/-- Entity metadata as consumed by the engine (`frappe.get_meta`):
the field list and the `istable` flag. -/
structure DocMeta where
  fields : List DocField
  istable : Bool
deriving DecidableEq, Repr

/-- `meta.get_field(fieldname)`. -/
def DocMeta.get_field (m : DocMeta) (name : String) : Option DocField :=
  m.fields.find? (fun f => f.fieldname == name)

/-- `meta.get_link_fields()`: the fields of type `Link`. -/
def DocMeta.get_link_fields (m : DocMeta) : List DocField :=
  m.fields.filter (fun f => f.fieldtype == "Link")

/-- Role permissions as returned by
`frappe.permissions.get_role_permissions`: the keys `query.py` reads. -/
structure RolePerms where
  read : Bool
  select : Bool
  has_if_owner_enabled : Bool
  if_owner : List String
deriving DecidableEq, Repr

/-- One entry of a user-permission list: the permitted document name and
the optional `applicable_for` restriction (`Option.none` models a missing
or falsy value). -/
structure UserPermEntry where
  doc : String
  applicable_for : Option String
deriving DecidableEq, Repr

/-- One row of a nested-set tree table: `name`, `lft`, `rgt`. -/
structure NSRecord where
  name : String
  lft : Int
  rgt : Int
deriving DecidableEq, Repr

/-- The engine's external collaborators for one build, with the acting
user and parent entity already fixed (the permission context is constant
for the lifetime of a build): metadata service, permission-decision
service, user-permission map, sharing registry, hook/script registry,
the strict-user-permissions system setting and the nested-set tables. -/
structure Env where
  getMeta : String → DocMeta
  hasPermission : String → String → Bool
  getPermittedFields : String → Option String → String → List String
  onlyHasSelectPerm : String → Bool
  getRolePermissions : String → RolePerms
  userPermissions : List (String × List UserPermEntry)
  getShared : String → List String
  hookConditions : String → List (Option String)
  serverScriptCondition : String → Option String
  strictUserPermissions : Bool
  nestedSetRecords : String → List NSRecord

/-- `user_permissions.get(options, {})`. -/
def lookupUserPerms (ups : List (String × List UserPermEntry)) (k : String) :
    List UserPermEntry :=
  (((ups.find? (fun p => p.1 == k)).map (fun p => p.2))).getD []

/-- A column-level term a filter resolves to: a pypika `Field`
(table-qualified column) or some other pypika term passed through by the
caller (not a `Field` instance). -/
inductive FieldRef
  | column (table : String) (name : String)
  | term (tag : String)
deriving DecidableEq, Repr

/-- The `name` attribute of a term (used by `_apply_filter` for the
hierarchy branch). -/
def FieldRef.exprName : FieldRef → String
  | .column _ n => n
  | .term tag => tag

/-- Join predicates the engine produces: the child-table join
`child.parent = parent.name AND child.parenttype = <parent doctype>` and
the link join `linked.name = parent.<link_fieldname>`. -/
inductive JoinOn
  | parentOf (childTable : String) (parentTable : String) (parenttype : String)
  | linkEq (linkedTable : String) (parentTable : String) (linkFieldname : String)
deriving DecidableEq, Repr

/-- One join clause of the query AST: the target table and its ON
predicate. -/
structure QJoin where
  target : String
  onPred : JoinOn
deriving DecidableEq, Repr

/-- Predicates attached to the query's WHERE clause. -/
inductive Predicate
  | isNull (f : FieldRef)
  | cmp (op : String) (f : FieldRef) (v : PyVal)
  | inList (f : FieldRef) (vs : List PyVal)
  | notInList (f : FieldRef) (vs : List PyVal)
  | orP (a : Predicate) (b : Predicate)
  | allP (ps : List Predicate)
  | raw (sql : String)
  | criterion (tag : String)

/-- `OPERATOR_MAP[op](field, value)` for the non-hierarchy operators:
`in` / `not in` build set predicates over the value's elements, the other
operators build a binary comparison. Modelled from the spec's operator
registry (the module is missing). -/
def applyOperatorFn (op : String) (f : FieldRef) (v : PyVal) : Predicate :=
  if op == "in" then
    Predicate.inList f (match v with | .list vs => vs | x => [x])
  else if op == "not in" then
    Predicate.notInList f (match v with | .list vs => vs | x => [x])
  else Predicate.cmp op f v

/-- A dynamic cross-table field: `ChildTableField doctype fieldname
parent_doctype parent_fieldname alias` or `LinkTableField doctype
fieldname parent_doctype link_fieldname alias`. -/
inductive DynField
  | childTable (doctype : String) (fieldname : String) (parent_doctype : String)
      (parent_fieldname : Option String) (al : Option String)
  | linkTable (doctype : String) (fieldname : String) (parent_doctype : String)
      (link_fieldname : String) (al : Option String)
deriving DecidableEq, Repr

/-- A `ChildQuery` instance. Python's `__init__` returns early when the
metadata field is not a child-collection type, leaving the instance with
NO attributes set; that degenerate state is modelled by `Option.none` in
every attribute slot. -/
structure ChildQueryObj where
  fieldname : Option String
  fields : Option (List String)
  parent_doctype : Option String
  doctype : Option String
deriving DecidableEq, Repr

/-- A parsed SELECT-list entry: a plain (possibly aliased) column, a
function term (arguments kept as their trimmed source strings), a
passthrough criterion, a passthrough pseudo-column term, a dynamic
cross-table field, or a child query. -/
inductive ParsedField
  | field (table : String) (name : String) (al : Option String)
  | funcTerm (name : String) (args : List String) (al : Option String)
  | criterion (tag : String)
  | pseudoColumn (tag : String)
  | dyn (df : DynField)
  | child (cq : ChildQueryObj)
deriving DecidableEq, Repr

/-- Table and column of a dynamic field's resolved column reference
(`self.field = self.table[self.fieldname]`). -/
def DynField.fieldExpr : DynField → FieldRef
  | .childTable dt fn _ _ _ => .column (docTypeTable dt) fn
  | .linkTable dt fn _ _ _ => .column (docTypeTable dt) fn

/-- The physical target table of a dynamic field's join
(`frappe.qb.DocType(self.doctype)`). -/
def DynField.targetTable : DynField → String
  | .childTable dt _ _ _ _ => docTypeTable dt
  | .linkTable dt _ _ _ _ => docTypeTable dt

/-- The query AST under construction (the pypika `QueryBuilder` state the
engine manipulates): selected fields, joins, conjunctive WHERE
predicates, pending child queries, clause options, the statement mode and
the `immutable` flag. -/
structure Query where
  table : String
  mode : String
  selects : List ParsedField
  joins : List QJoin
  wheres : List Predicate
  childQueries : List ChildQueryObj
  orderBys : List (String × Bool)
  groupBys : List String
  limit : Option Int
  offset : Option Int
  distinct : Bool
  forUpdate : Bool
  skipLocked : Bool
  nowait : Bool
  immutable : Bool

/-- A fresh builder for a table in a given statement mode. -/
def Query.init (table : String) (mode : String) : Query :=
  { table := table, mode := mode, selects := [], joins := [], wheres := [],
    childQueries := [], orderBys := [], groupBys := [],
    limit := Option.none, offset := Option.none, distinct := false,
    forUpdate := false, skipLocked := false, nowait := false,
    immutable := false }

/-- `query.where(predicate)`. -/
def Query.where (q : Query) (p : Predicate) : Query :=
  { q with wheres := q.wheres ++ [p] }

/-- `query.is_joined(table)`: join presence checked by target-table
identity. -/
def Query.isJoined (q : Query) (t : String) : Bool :=
  q.joins.any (fun j => j.target == t)

/-- `query.left_join(table).on(pred)`. -/
def Query.leftJoin (q : Query) (t : String) (p : JoinOn) : Query :=
  { q with joins := q.joins ++ [{ target := t, onPred := p }] }

/-- `ChildTableField.apply_join` / `LinkTableField.apply_join`
(query.py lines 836-843 and 865-870): if the target table is not already
joined, left-join it — on `child.parent = parent.name AND
child.parenttype = parent_doctype` for a child table, and on
`linked.name = parent.link_fieldname` for a link table. -/
def DynField.apply_join (df : DynField) (q : Query) : Query :=
  match df with
  | .childTable dt _ pdt _ _ =>
    let t := docTypeTable dt
    if q.isJoined t then q
    else q.leftJoin t (.parentOf t (docTypeTable pdt) pdt)
  | .linkTable dt _ pdt lf _ =>
    let t := docTypeTable dt
    if q.isJoined t then q
    else q.leftJoin t (.linkEq t (docTypeTable pdt) lf)

/-- `apply_select` of a dynamic field: apply the join, then select the
target column under the optional alias. -/
def DynField.apply_select (df : DynField) (q : Query) : Query :=
  let q1 := df.apply_join q
  match df with
  | .childTable dt fn _ _ al =>
    { q1 with selects := q1.selects ++ [.field (docTypeTable dt) fn al] }
  | .linkTable dt fn _ _ al =>
    { q1 with selects := q1.selects ++ [.field (docTypeTable dt) fn al] }

/-- The per-build engine attributes set up by `get_query`. -/
structure EngineCtx where
  doctype : String
  parent_doctype : Option String
  user : String
  apply_permissions : Bool
  is_mariadb : Bool
deriving Repr

/-- `self.table`, the physical table of the owning entity. -/
def EngineCtx.tableName (self : EngineCtx) : String := docTypeTable self.doctype

/-- The alias split of `DynamicTableField.parse`: `field.split(" as ")`
unpacked into two names — more than one occurrence raises `ValueError`. -/
def dynAliasSplit (field : String) : Except PyErr (String × Option String) :=
  match pySplitOn field " as " with
  | [f] => .ok (f, Option.none)
  | [f, a] => .ok (f, Option.some a)
  | _ => .error .valueError

/-- Model of the regex search `([`\"])tab(.+?)\1.\1(.+)\1` used for the
quoted-table shape, on the alias-stripped field. The leading quote is
anchored by the `startswith` guard; the lazy group stops at the first
closing quote, the bare `.` of the pattern matches one arbitrary
character, and the greedy final group extends to the last quote. A field
that fails the search makes `.groups()` raise `AttributeError`; this model
covers whole-string matches of the canonical ``  `tabX`.`y`  `` shape
(mid-string backtracking matches of malformed inputs are not modelled). -/
def quotedTabMatch (f : String) : Option (String × String) :=
  match f.toList with
  | q :: 't' :: 'a' :: 'b' :: rest =>
    if q == backtick || q == '"' then
      let a := rest.takeWhile (fun c => c ≠ q)
      match rest.dropWhile (fun c => c ≠ q) with
      | _ :: _ :: q2 :: rest2 =>
        if q2 == q && !a.isEmpty then
          match rest2.reverse with
          | last :: brev =>
            if last == q && !brev.isEmpty then
              Option.some (a.asString, brev.reverse.asString)
            else Option.none
          | [] => Option.none
        else Option.none
      | _ => Option.none
    else Option.none
  | _ => Option.none

/-- `DynamicTableField.parse(field, doctype)` (query.py lines 790-808):
no dot means no match; an optional `as alias` suffix is split off; a
quoted `tab...` prefix is parsed as a child-table reference (the owning
entity itself is not dynamic); otherwise `link.field` is resolved through
the owning entity's metadata — a `Link` field gives a `LinkTableField`, a
child-collection field gives a `ChildTableField`, any other fieldtype
gives no match, and a missing field raises `AttributeError`
(`linked_field.options` on `None`). -/
def dynamicFieldParse (env : Env) (field : String) (doctype : String) :
    Except PyErr (Option DynField) :=
  if !(field.data.contains '.') then .ok Option.none
  else
    match dynAliasSplit field with
    | .error e => .error e
    | .ok (f, al) =>
      if pyStartsWith f "`tab" || pyStartsWith f "\"tab" then
        match quotedTabMatch f with
        | Option.none => .error .attributeError
        | Option.some (child_doctype, child_field) =>
          if child_doctype == doctype then .ok Option.none
          else .ok (Option.some (.childTable child_doctype child_field doctype Option.none al))
      else
        match pySplitOn f "." with
        | [linked_fieldname, fieldname] =>
          match (env.getMeta doctype).get_field linked_fieldname with
          | Option.none => .error .attributeError
          | Option.some lf =>
            if lf.fieldtype == "Link" then
              .ok (Option.some (.linkTable lf.options fieldname doctype linked_fieldname al))
            else if table_fields.contains lf.fieldtype then
              .ok (Option.some (.childTable lf.options fieldname doctype
                (Option.some linked_fieldname) al))
            else .ok Option.none
        | _ => .error .valueError

/-- `ChildQuery.__init__(fieldname, fields, parent_doctype)` (query.py
lines 874-886): a missing metadata field raises `AttributeError`
(`field.fieldtype` on `None`); a non-child-collection fieldtype makes
`__init__` return early, producing an instance with no attributes;
otherwise all attributes are set, with `doctype` taken from the field's
`options`. -/
def ChildQuery.init (env : Env) (fieldname : String) (fields : List String)
    (parent_doctype : String) : Except PyErr ChildQueryObj :=
  match (env.getMeta parent_doctype).get_field fieldname with
  | Option.none => .error .attributeError
  | Option.some f =>
    if !(table_fields.contains f.fieldtype) then
      .ok { fieldname := Option.none, fields := Option.none,
            parent_doctype := Option.none, doctype := Option.none }
    else
      .ok { fieldname := Option.some fieldname, fields := Option.some fields,
            parent_doctype := Option.some parent_doctype,
            doctype := Option.some f.options }

/-- Modelled from the spec: the names of the `SqlFunctions` registry from
the missing `frappe.query_builder.functions` module (aggregates, date and
string functions); `SQL_FUNCTIONS` is these names each followed by an
opening parenthesis. -/
def SQL_FUNCTION_NAMES : List String :=
  ["abs", "avg", "count", "sum", "max", "min", "now", "concat",
   "concat_ws", "ifnull", "coalesce", "locate", "strpos", "timestamp",
   "date_format", "extract", "year", "month", "round", "truncate"]

/-- `has_function(field)` (query.py lines 909-913): casefold unless the
field contains a backtick, then test whether any registered function name
followed by `(` occurs as a substring. -/
def has_function (field : String) : Bool :=
  let f := if field.data.contains backtick then field else pyToLower field
  SQL_FUNCTION_NAMES.any (fun fn => strContains f (fn ++ "("))

/-- Index of the first `)` in the character list (guarded by a `contains`
check at the call site, mirroring `field.index(")")`). -/
def firstCloseParen (cs : List Char) : Nat :=
  (cs.findIdx? (fun c => c == ')')).getD 0

/-- `Engine.get_function_object(field)` (query.py lines 300-352): the
function name is the text before the first `(` capitalized, the argument
text runs to the first `)` (a missing `)` raises `ValueError`), arguments
are split on commas, an `as` alias is unpacked from an exact `" as "`
split (more than one occurrence raises `ValueError`) and stripped of
backticks, and `now` maps to the argumentless `Now()`. The literal
casting and operator-splitting of individual arguments (lines 308-342)
only affect the internal representation of the argument terms; arguments
are modelled as their trimmed source strings. -/
def get_function_object (field : String) : Except PyErr ParsedField :=
  let func := pyCapitalize ((pySplitOn field "(").headD field)
  if !(field.data.contains ')') then .error .valueError
  else
    let cs := field.data
    let inner := ((cs.take (firstCloseParen cs)).drop (func.length + 1)).asString
    let args := (pySplitOn inner ",").map pyTrim
    let aliasStep : Except PyErr (Option String) :=
      match pySplitOn field " as " with
      | [_] => .ok Option.none
      | [_, a] => .ok (Option.some a)
      | _ => .error .valueError
    match aliasStep with
    | .error e => .error e
    | .ok al =>
      let al := al.map (fun a =>
        if a.data.contains backtick then pyRemoveBackticks a else a)
      if pyToLower func == "now" then .ok (.funcTerm "Now" [] Option.none)
      else .ok (.funcTerm func args al)

/-- The alias split of `parse_string_field`: a case-insensitive `" as "`
containment gate, then `re.split(r"\s+as\s+", field, IGNORECASE)` taking
the first two pieces; the alias is stripped of whitespace and quotes. -/
def findAsSplit : List Char → Option (List Char × List Char)
  | [] => Option.none
  | c :: rest =>
    if c.isWhitespace then
      match (c :: rest).dropWhile Char.isWhitespace with
      | a :: s :: t2 =>
        if (a == 'a' || a == 'A') && (s == 's' || s == 'S')
            && (match t2.head? with
                | Option.some w => w.isWhitespace
                | Option.none => false) then
          Option.some ([], t2.dropWhile Char.isWhitespace)
        else
          match findAsSplit rest with
          | Option.some (pre, post) => Option.some (c :: pre, post)
          | Option.none => Option.none
      | _ =>
        match findAsSplit rest with
        | Option.some (pre, post) => Option.some (c :: pre, post)
        | Option.none => Option.none
    else
      match findAsSplit rest with
      | Option.some (pre, post) => Option.some (c :: pre, post)
      | Option.none => Option.none

/-- Strip leading/trailing backticks and double quotes, Python
`str.strip('`"')`. -/
def stripQuoteChars (s : String) : String :=
  let p := fun c => c == backtick || c == '"'
  (((s.toList.dropWhile p).reverse.dropWhile p).reverse).asString

/-- Split `field` into the field part and the optional alias as
`parse_string_field` does (gate on `" as " in field.lower()`, then split
on the first `\s+as\s+`; the alias is everything up to a second
occurrence, stripped and unquoted). -/
def parseStringFieldAlias (field : String) : String × Option String :=
  if strContains (pyToLower field) " as " then
    match findAsSplit field.data with
    | Option.some (pre, post) =>
      let aliasPart :=
        match findAsSplit post with
        | Option.some (apre, _) => apre.asString
        | Option.none => post.asString
      (pyTrim pre.asString, Option.some (stripQuoteChars (pyTrim aliasPart)))
    | Option.none => (field, Option.none)
  else (field, Option.none)

/-- `Engine.parse_string_field(field)` (query.py lines 354-396): `*`
selects the whole owning table; otherwise the optional alias is split
off, the remainder must match `FIELD_PARSE_REGEX` (else the build fails
with a validation error), and the column is qualified by the captured
table (via `frappe.qb.DocType`) or by the owning table. -/
def parse_string_field (self : EngineCtx) (field : String) :
    Except PyErr ParsedField :=
  if field == "*" then .ok (.field self.tableName "*" Option.none)
  else
    let (field_part, al) := parseStringFieldAlias field
    match fieldParseRegexMatch field_part with
    | Option.none => .error .validationError
    | Option.some (Option.some t, f) => .ok (.field (docTypeTable t) f al)
    | Option.some (Option.none, f) => .ok (.field self.tableName f al)

/-- `_validate_select_field(field)` (query.py lines 949-965): `*`, digit
strings, the SELECT field pattern and the function-call pattern are
accepted; anything else fails with a permission error. -/
def _validate_select_field (f : String) : Except PyErr Unit :=
  if f == "*" then .ok ()
  else if isDigitStr f then .ok ()
  else if allowedFieldPattern f || functionCallPattern f then .ok ()
  else .error .permissionError

/-- `_sanitize_field(field, is_mariadb)` (query.py lines 968-978):
validate, strip SQL comments, then strip whitespace. -/
def _sanitize_field (f : String) (_is_mariadb : Bool) : Except PyErr String :=
  match _validate_select_field f with
  | .error e => .error e
  | .ok _ => .ok (pyTrim (strip_comments f))

/-- The value paired with a child-collection key in a mapping field
specification: a list of sub-field names, or something that is not a
list/tuple (which `_parse_single_field_item` rejects). -/
inductive ChildFieldsVal
  | fieldsList (fs : List String)
  | notList (tag : String)
deriving DecidableEq, Repr

/-- One pre-split item of the `fields` argument: a string, a passthrough
criterion or pseudo-column term, or a child-query mapping. -/
inductive FieldSpec
  | str (s : String)
  | criterion (tag : String)
  | pseudoColumn (tag : String)
  | dict (entries : List (String × ChildFieldsVal))
deriving DecidableEq, Repr

/-- The `fields` argument of `get_query`: `None`, a comma-separated
string, or a list/tuple of items. -/
inductive FieldsArg
  | none
  | str (s : String)
  | list (items : List FieldSpec)
deriving DecidableEq, Repr

/-- Build the child queries of a mapping field specification
(the dict branch of `_parse_single_field_item`, query.py lines 404-415):
a non-list sub-field value fails with a validation error, and every key
becomes a `ChildQuery` (degenerate or not). -/
def parseDictFieldItem (env : Env) (self : EngineCtx)
    (entries : List (String × ChildFieldsVal)) :
    Except PyErr (List ParsedField) :=
  match entries with
  | [] => .ok []
  | (k, v) :: rest =>
    match v with
    | .notList _ => .error .validationError
    | .fieldsList fs =>
      match ChildQuery.init env k fs self.doctype with
      | .error e => .error e
      | .ok cq =>
        match parseDictFieldItem env self rest with
        | .error e => .error e
        | .ok tail => .ok (.child cq :: tail)

/-- `_parse_single_field_item(field)` (query.py lines 398-429): criteria
pass through; mappings become child queries; strings are routed to the
function parser, the dynamic-field resolver, or the plain field grammar. -/
def _parse_single_field_item (env : Env) (self : EngineCtx) (item : FieldSpec) :
    Except PyErr (List ParsedField) :=
  match item with
  | .criterion c => .ok [.criterion c]
  | .pseudoColumn c => .ok [.pseudoColumn c]
  | .dict entries => parseDictFieldItem env self entries
  | .str field =>
    if has_function field then
      match get_function_object field with
      | .error e => .error e
      | .ok f => .ok [f]
    else
      match dynamicFieldParse env field self.doctype with
      | .error e => .error e
      | .ok (Option.some df) => .ok [.dyn df]
      | .ok Option.none =>
        match parse_string_field self field with
        | .error e => .error e
        | .ok pf => .ok [pf]

/-- Sanitize one field item as `parse_fields` does for list input
(strings are validated and comment-stripped, other items pass through). -/
def sanitizeFieldSpec (self : EngineCtx) (item : FieldSpec) :
    Except PyErr FieldSpec :=
  match item with
  | .str f =>
    match _sanitize_field f self.is_mariadb with
    | .error e => .error e
    | .ok f2 => .ok (.str f2)
  | other => .ok other

/-- Run the sanitizer over a field list. -/
def sanitizeFieldSpecs (self : EngineCtx) :
    List FieldSpec → Except PyErr (List FieldSpec)
  | [] => .ok []
  | it :: rest =>
    match sanitizeFieldSpec self it with
    | .error e => .error e
    | .ok it2 =>
      match sanitizeFieldSpecs self rest with
      | .error e => .error e
      | .ok tail => .ok (it2 :: tail)

/-- Parse each sanitized item and concatenate the results (the final loop
of `parse_fields`; list results extend the accumulator, single results
append). -/
def parseFieldItems (env : Env) (self : EngineCtx) :
    List FieldSpec → Except PyErr (List ParsedField)
  | [] => .ok []
  | it :: rest =>
    match _parse_single_field_item env self it with
    | .error e => .error e
    | .ok head =>
      match parseFieldItems env self rest with
      | .error e => .error e
      | .ok tail => .ok (head ++ tail)

/-- `Engine.parse_fields(fields)` (query.py lines 431-461): a falsy
argument gives no fields; a string is comma-split (outside parentheses),
trimmed, filtered of empties and sanitized; a list/tuple has its string
items sanitized; every item is then parsed and concatenated. -/
def parse_fields (env : Env) (self : EngineCtx) (fields : FieldsArg) :
    Except PyErr (List ParsedField) :=
  match fields with
  | .none => .ok []
  | .str s =>
    if s == "" then .ok []
    else
      let parts := ((commaSplit s).map pyTrim).filter (fun f => !(f == ""))
      match sanitizeFieldSpecs self (parts.map FieldSpec.str) with
      | .error e => .error e
      | .ok items => parseFieldItems env self items
  | .list items =>
    if items.isEmpty then .ok []
    else
      match sanitizeFieldSpecs self items with
      | .error e => .error e
      | .ok items2 => parseFieldItems env self items2

/-- `Engine.get_permission_type(doctype)` (query.py lines 711-715). -/
def get_permission_type (env : Env) (doctype : String) : String :=
  if env.onlyHasSelectPerm doctype then "select" else "read"

/-- The permitted-field set of the owning entity used by
`apply_field_permissions` (query.py lines 541-548). -/
def permittedList (env : Env) (self : EngineCtx) : List String :=
  env.getPermittedFields self.doctype self.parent_doctype
    (get_permission_type env self.doctype)

/-- The permitted-field set of a child entity referenced by a
`ChildTableField` or `ChildQuery` (query.py lines 553-560 and 570-577). -/
def permittedChildList (env : Env) (dt : String) (pdt : String) : List String :=
  env.getPermittedFields dt (Option.some pdt) (get_permission_type env dt)

/-- Filtering of one parsed field by `apply_field_permissions` (query.py
lines 550-597): child-table fields keep their entry when the target
column is permitted on the child entity; link-table fields when the link
column is permitted on the owning entity; child queries have their
sub-field lists filtered in place and are dropped when empty (a
degenerate `ChildQuery` raises `AttributeError` on the `field.doctype`
access); a plain `*` field expands to the parse of the de-duplicated
permitted list; other plain fields keep their entry when their name is
permitted (the aliased branch repeats the same membership test); pseudo
columns pass through; function terms and criteria match no branch and
are dropped. -/
def apply_field_permissions_one (env : Env) (self : EngineCtx)
    (permitted : List String) (f : ParsedField) :
    Except PyErr (List ParsedField) :=
  match f with
  | .dyn (.childTable dt fn pdt pfn al) =>
    if (permittedChildList env dt pdt).contains fn then
      .ok [.dyn (.childTable dt fn pdt pfn al)]
    else .ok []
  | .dyn (.linkTable dt fn pdt lf al) =>
    if permitted.contains lf then .ok [.dyn (.linkTable dt fn pdt lf al)]
    else .ok []
  | .child cq =>
    match cq.doctype, cq.parent_doctype, cq.fields, cq.fieldname with
    | Option.some dt, Option.some pdt, Option.some fs, Option.some fname =>
      let pcf := permittedChildList env dt pdt
      let newFs := fs.filter (fun x => pcf.contains x)
      if newFs.isEmpty then .ok []
      else .ok [.child { fieldname := Option.some fname,
                         fields := Option.some newFs,
                         parent_doctype := Option.some pdt,
                         doctype := Option.some dt }]
    | _, _, _, _ => .error .attributeError
  | .field t n al =>
    if n == "*" then
      parse_fields env self (.list ((permitted.dedup).map FieldSpec.str))
    else if permitted.contains n then .ok [.field t n al]
    else .ok []
  | .pseudoColumn c => .ok [.pseudoColumn c]
  | .funcTerm _ _ _ => .ok []
  | .criterion _ => .ok []

/-- The accumulation loop of `apply_field_permissions`. -/
def apply_field_permissions_go (env : Env) (self : EngineCtx)
    (permitted : List String) :
    List ParsedField → Except PyErr (List ParsedField)
  | [] => .ok []
  | f :: rest =>
    match apply_field_permissions_one env self permitted f with
    | .error e => .error e
    | .ok head =>
      match apply_field_permissions_go env self permitted rest with
      | .error e => .error e
      | .ok tail => .ok (head ++ tail)

/-- `Engine.apply_field_permissions()` (query.py lines 538-599). -/
def apply_field_permissions (env : Env) (self : EngineCtx)
    (fields : List ParsedField) : Except PyErr (List ParsedField) :=
  apply_field_permissions_go env self (permittedList env self) fields

/-- The `field` argument of a filter: a string or an already-resolved
term. -/
inductive FilterField
  | str (s : String)
  | fieldRef (f : FieldRef)
deriving DecidableEq, Repr

/-- `Engine._validate_and_prepare_filter_field(field, doctype)` (query.py
lines 209-248): non-strings pass through; a string containing a special
character is tried as a dynamic field (applying its join and taking its
resolved column), else must match `ALLOWED_SQL_FIELD_PATTERN` (failure is
a permission error); safe strings become a column of
`doctype or self.doctype` under the original string as column name. -/
def _validate_and_prepare_filter_field (env : Env) (self : EngineCtx)
    (q : Query) (field : FilterField) (doctype : Option String) :
    Except PyErr (Query × FieldRef) :=
  match field with
  | .fieldRef f => .ok (q, f)
  | .str s =>
    if specialCharSearch s then
      match dynamicFieldParse env s self.doctype with
      | .error e => .error e
      | .ok (Option.some df) => .ok (df.apply_join q, df.fieldExpr)
      | .ok Option.none =>
        if allowedSqlFieldPattern s then
          .ok (q, .column (docTypeTable (doctype.getD self.doctype)) s)
        else .error .permissionError
    else .ok (q, .column (docTypeTable (doctype.getD self.doctype)) s)

/-- The implicit child join of `_apply_filter` (query.py lines 262-268):
a 4-tuple filter naming a different entity that is a child table and not
yet joined is left-joined on the parent/parenttype predicate. -/
def applyImplicitChildJoin (env : Env) (self : EngineCtx) (q : Query)
    (doctype : Option String) : Query :=
  match doctype with
  | Option.none => q
  | Option.some dt =>
    if dt == self.doctype then q
    else
      let t := docTypeTable dt
      if (env.getMeta dt).istable && !(q.isJoined t) then
        q.leftJoin t (.parentOf t self.tableName self.doctype)
      else q

/-- Insertion into a list sorted by the comparison `le`. -/
def insertSortedNS (le : NSRecord → NSRecord → Bool) (x : NSRecord) :
    List NSRecord → List NSRecord
  | [] => [x]
  | y :: ys => if le x y then x :: y :: ys else y :: insertSortedNS le x ys

/-- Sort of the hierarchy result rows (the `orderby lft` of the two
lookup queries). -/
def sortNSBy (le : NSRecord → NSRecord → Bool) :
    List NSRecord → List NSRecord
  | [] => []
  | x :: xs => insertSortedNS le x (sortNSBy le xs)

/-- The WHERE clause of the reference-node lookup
(`table.name == name`): a SQL equality between the name column and the
filter value (true only for the matching string value). -/
def nsNameMatches (name : PyVal) (r : NSRecord) : Bool :=
  match name with
  | .s n => r.name == n
  | _ => false

/-- The descendants condition `table.lft > lft AND table.rgt < rgt`; a
comparison against `NULL` bounds (a lookup miss) never holds. -/
def nsBoundsDesc (bounds : Option (Int × Int)) (r : NSRecord) : Bool :=
  match bounds with
  | Option.some (l, rg) => decide (l < r.lft) && decide (r.rgt < rg)
  | Option.none => false

/-- The ancestors condition `table.lft < lft AND table.rgt > rgt`; a
comparison against `NULL` bounds (a lookup miss) never holds. -/
def nsBoundsAnc (bounds : Option (Int × Int)) (r : NSRecord) : Bool :=
  match bounds with
  | Option.some (l, rg) => decide (r.lft < l) && decide (rg < r.rgt)
  | Option.none => false

/-- `get_nested_set_hierarchy_result(doctype, name, hierarchy)` (query.py
lines 916-945): look up the reference node's `lft`/`rgt` bounds (a miss
leaves them `None`); descendants keep the rows strictly inside the
bounds ordered by `lft` ascending, with the inclusive variant appending
the reference name; ancestors keep the rows strictly containing the
bounds ordered by `lft` descending. A SQL comparison against a `NULL`
bound never holds, so a lookup miss yields no rows from either query. -/
def get_nested_set_hierarchy_result (env : Env) (doctype : String)
    (name : PyVal) (hierarchy : String) : List PyVal :=
  let rows := env.nestedSetRecords doctype
  let bounds := (rows.find? (nsNameMatches name)).map (fun r => (r.lft, r.rgt))
  if hierarchy == "descendants of" || hierarchy == "not descendants of"
      || hierarchy == "descendants of (inclusive)" then
    let result := (sortNSBy (fun a b => decide (a.lft ≤ b.lft))
      (rows.filter (nsBoundsDesc bounds))).map (fun r => PyVal.s r.name)
    if hierarchy == "descendants of (inclusive)" then result ++ [name]
    else result
  else
    (sortNSBy (fun a b => decide (b.lft ≤ a.lft))
      (rows.filter (nsBoundsAnc bounds))).map (fun r => PyVal.s r.name)

/-- The reference entity of a hierarchy filter (query.py lines 281-283):
the `options` of the owning entity's metadata field named by the filter,
falling back to the owning entity itself. -/
def hierarchyRefDoctype (env : Env) (self : EngineCtx)
    (original_field_name : String) : String :=
  match (env.getMeta self.doctype).get_field original_field_name with
  | Option.some df => df.options
  | Option.none => self.doctype

/-- `Engine._apply_filter(field, value, operator, doctype)` (query.py
lines 250-298): resolve the field, apply the implicit child join,
normalize the value (an empty collection becomes the singleton empty
string); a hierarchy operator resolves the reference entity from the
owning entity's metadata, computes the matching node set and attaches an
`IN` (or `NOT IN` for the negated operators) predicate with `('')` as
fallback for an empty set; otherwise the operator is looked up by its
casefolded name (a miss raises `KeyError`) and a `None` value against a
resolved column attaches an IS-NULL predicate instead of a comparison. -/
def _apply_filter (env : Env) (self : EngineCtx) (q : Query)
    (field : FilterField) (value : PyVal) (operator : String)
    (doctype : Option String) : Except PyErr Query :=
  match _validate_and_prepare_filter_field env self q field doctype with
  | .error e => .error e
  | .ok (q1, f) =>
    let q2 := applyImplicitChildJoin env self q1 doctype
    let v1 := convert_to_value value
    let v2 := if isEmptyCollectionVal v1 then PyVal.list [.s ""] else v1
    if NESTED_SET_OPERATORS.contains operator then
      let original_field_name :=
        match field with
        | .str s => s
        | .fieldRef e => e.exprName
      let rd := hierarchyRefDoctype env self original_field_name
      let nodes := get_nested_set_hierarchy_result env rd v2 operator
      let vals := if nodes.isEmpty then [PyVal.s ""] else nodes
      if operator == "not ancestors of" || operator == "not descendants of" then
        .ok (q2.where (.notInList f vals))
      else
        .ok (q2.where (.inList f vals))
    else
      if OPERATOR_MAP_KEYS.contains (pyToLower operator) then
        match v2, f with
        | .none, .column t n => .ok (q2.where (.isNull (.column t n)))
        | v, f2 => .ok (q2.where (applyOperatorFn (pyToLower operator) f2 v))
      else .error .keyError

/-- `Engine.apply_dict_filters(filters)` (query.py lines 201-207): each
value defaults the operator to `=`; a two-element list/tuple value is
unpacked as `(operator, value)` (other lengths fail the unpacking, and a
non-string operator fails its later `casefold`). -/
def apply_dict_filters (env : Env) (self : EngineCtx) (q : Query) :
    List (String × PyVal) → Except PyErr Query
  | [] => .ok q
  | (field, value) :: rest =>
    let step : Except PyErr Query :=
      match value with
      | .list [PyVal.s op, v] => _apply_filter env self q (.str field) v op Option.none
      | .list [_, _] => .error .attributeError
      | .list _ => .error .valueError
      | v => _apply_filter env self q (.str field) v "=" Option.none
    match step with
    | .error e => .error e
    | .ok q2 => apply_dict_filters env self q2 rest

/-- One element of a list-shaped `filters` argument: a primitive value, a
criterion, a mapping, or a nested 2/3/4-tuple (other tuple arities fail
`apply_list_filters`). -/
inductive FilterItem
  | value (v : PyVal)
  | criterion (p : Predicate)
  | dict (entries : List (String × PyVal))
  | tuple2 (field : FilterField) (value : PyVal)
  | tuple3 (field : FilterField) (op : String) (value : PyVal)
  | tuple4 (doctype : String) (field : FilterField) (op : String) (value : PyVal)
  | tupleOther (n : Nat)

/-- The `filters` argument of `get_query`. -/
inductive FiltersArg
  | none
  | value (v : PyVal)
  | criterion (p : Predicate)
  | dict (entries : List (String × PyVal))
  | list (items : List FilterItem)

/-- Test used by the list branch of `apply_filters`:
`all(isinstance(d, FilterValue) for d in filters)`. -/
def filterItemIsValue : FilterItem → Bool
  | .value v => isFilterValue v
  | _ => false

/-- The scalar payload of a `FilterItem.value` (defaulting to `None`,
unreachable for non-value items after the `all` test). -/
def filterItemVal : FilterItem → PyVal
  | .value v => v
  | _ => PyVal.none

/-- The per-item dispatch of the mixed-list branch of `apply_filters`
(query.py lines 178-184) together with `apply_list_filters` (lines
188-199): values recurse as primitive filters, criteria are attached,
mappings are compiled, and 2/3/4-tuples are dispatched positionally. -/
def applyFilterItem (env : Env) (self : EngineCtx) (q : Query) :
    FilterItem → Except PyErr Query
  | .value v =>
    if isFilterValue v then
      apply_dict_filters env self q [("name", convert_to_value v)]
    else .error .valueError
  | .criterion p => .ok (q.where p)
  | .dict entries => apply_dict_filters env self q entries
  | .tuple2 field value => _apply_filter env self q field value "=" Option.none
  | .tuple3 field op value => _apply_filter env self q field value op Option.none
  | .tuple4 dt field op value => _apply_filter env self q field value op (Option.some dt)
  | .tupleOther _ => .error .valueError

/-- Fold of `applyFilterItem` over a mixed filter list. -/
def applyFilterItems (env : Env) (self : EngineCtx) (q : Query) :
    List FilterItem → Except PyErr Query
  | [] => .ok q
  | it :: rest =>
    match applyFilterItem env self q it with
    | .error e => .error e
    | .ok q2 => applyFilterItems env self q2 rest

/-- `Engine.apply_filters(filters)` (query.py lines 158-186): `None` adds
nothing; a primitive becomes an equality on `name`; a criterion is
attached as-is; a mapping is compiled entry-wise; a non-empty list of
primitives becomes `name IN (...)`; any other list is dispatched
item-wise; anything else raises `ValueError`. -/
def apply_filters (env : Env) (self : EngineCtx) (q : Query)
    (filters : FiltersArg) : Except PyErr Query :=
  match filters with
  | .none => .ok q
  | .value v =>
    if isFilterValue v then
      apply_dict_filters env self q [("name", convert_to_value v)]
    else .error .valueError
  | .criterion p => .ok (q.where p)
  | .dict entries => apply_dict_filters env self q entries
  | .list items =>
    if items.all filterItemIsValue && items.length > 0 then
      apply_dict_filters env self q
        [("name", PyVal.list [PyVal.s "in",
          PyVal.list (items.map (fun d => convert_to_value (filterItemVal d)))])]
    else applyFilterItems env self q items

/-- `Engine.requires_owner_constraint(role_permissions)` (query.py lines
717-733): owner-only enforcement applies when `has_if_owner_enabled` is
set, the `if_owner` set is non-empty, and neither `select` nor `read` is
granted outside the `if_owner` set. -/
def requires_owner_constraint (rp : RolePerms) : Bool :=
  if !rp.has_if_owner_enabled then false
  else if rp.if_owner.isEmpty then false
  else if rp.select && !(rp.if_owner.contains "select") then false
  else if rp.read && !(rp.if_owner.contains "read") then false
  else true

/-- `Engine.get_doctype_link_fields()` (query.py lines 650-656): the
owning entity itself under fieldname `name`, followed by its link
fields. -/
def get_doctype_link_fields (env : Env) (doctype : String) : List DocField :=
  { fieldname := "name", fieldtype := "Link", options := doctype,
    ignore_user_permissions := false } ::
    (env.getMeta doctype).get_link_fields

/-- The inner docs loop of `get_user_permission_conditions` (query.py
lines 624-636): entries without an `applicable_for` restriction always
apply; a restricted entry on the synthetic `name` link field evaluates
`self.reference_doctype`, an attribute `get_query` never assigns, so it
raises `AttributeError`; a restricted entry on an ordinary link field
applies exactly when the restriction names the owning entity. -/
def collectUserPermDocs (doctype : String) (fieldname : String) :
    List UserPermEntry → Except PyErr (List String)
  | [] => .ok []
  | p :: rest =>
    let step : Except PyErr (List String) :=
      match p.applicable_for with
      | Option.none => .ok [p.doc]
      | Option.some af =>
        if fieldname == "name" then .error .attributeError
        else if af == doctype then .ok [p.doc]
        else .ok []
    match step with
    | .error e => .error e
    | .ok head =>
      match collectUserPermDocs doctype fieldname rest with
      | .error e => .error e
      | .ok tail => .ok (head ++ tail)

/-- The per-link-field loop of `get_user_permission_conditions` (query.py
lines 618-646): fields flagged `ignore_user_permissions` are skipped;
fields whose linked entity has user-permission values collect the
applicable docs and, when any exist, contribute a strict `IN` condition
or a lenient `IS NULL OR IN` condition depending on the
`apply_strict_user_permissions` system setting. -/
def userPermConditionsLoop (env : Env) (self : EngineCtx) :
    List DocField → Except PyErr (List Predicate)
  | [] => .ok []
  | df :: rest =>
    let step : Except PyErr (List Predicate) :=
      if df.ignore_user_permissions then .ok []
      else
        let vals := lookupUserPerms env.userPermissions df.options
        if vals.isEmpty then .ok []
        else
          match collectUserPermDocs self.doctype df.fieldname vals with
          | .error e => .error e
          | .ok docs =>
            if docs.isEmpty then .ok []
            else
              let fieldTerm := FieldRef.column self.tableName df.fieldname
              if env.strictUserPermissions then
                .ok [.inList fieldTerm (docs.map PyVal.s)]
              else
                .ok [.orP (.isNull fieldTerm) (.inList fieldTerm (docs.map PyVal.s))]
    match step with
    | .error e => .error e
    | .ok head =>
      match userPermConditionsLoop env self rest with
      | .error e => .error e
      | .ok tail => .ok (head ++ tail)

/-- `Engine.get_user_permission_conditions(role_permissions)` (query.py
lines 601-648): without role read/select, or without any user
permissions, no conditions and no shared fetch; otherwise the shared
fetch is marked immediately and the link-field loop builds the
conditions. -/
def get_user_permission_conditions (env : Env) (self : EngineCtx)
    (rp : RolePerms) : Except PyErr (List Predicate × Bool) :=
  if !(rp.read || rp.select) then .ok ([], false)
  else if env.userPermissions.isEmpty then .ok ([], false)
  else
    match userPermConditionsLoop env self (get_doctype_link_fields env self.doctype) with
    | .error e => .error e
    | .ok conditions => .ok (conditions, true)

/-- `Engine.get_permission_query_conditions()` (query.py lines 691-709):
truthy results of the hook methods registered for the entity and for
`*`, then the server-script condition, each as a raw criterion. -/
def get_permission_query_conditions (env : Env) (self : EngineCtx) :
    List Predicate :=
  let methodResults := env.hookConditions self.doctype ++ env.hookConditions "*"
  let hookConds := (methodResults.filterMap id).map Predicate.raw
  match env.serverScriptCondition self.doctype with
  | Option.some c => hookConds ++ [Predicate.raw c]
  | Option.none => hookConds

/-- The owner constraint `self.table.owner == self.user`. -/
def ownerCondition (self : EngineCtx) : Predicate :=
  .cmp "=" (.column self.tableName "owner") (.s self.user)

/-- The first stage of `add_permission_conditions` (query.py lines
659-670): the conditions gathered before the hook conditions, together
with the shared-record-fetch flag — the owner constraint when owner-only
enforcement applies, else the user-permission conditions when role
read/select exists, else nothing. -/
def base_permission_conditions (env : Env) (self : EngineCtx) :
    Except PyErr (List Predicate × Bool) :=
  let rp := env.getRolePermissions self.doctype
  if requires_owner_constraint rp then .ok ([ownerCondition self], true)
  else if rp.read || rp.select then get_user_permission_conditions env self rp
  else .ok ([], false)

/-- `Engine.add_permission_conditions()` (query.py lines 658-689): the
base conditions are extended with the hook/script conditions; shared
records are fetched when flagged; a non-empty share list disjoins the
AND of all conditions with a `name IN shared` clause (or stands alone if
there are no conditions); otherwise the AND of the conditions is
attached, or nothing when there are none. -/
def add_permission_conditions (env : Env) (self : EngineCtx) (q : Query) :
    Except PyErr Query :=
  match base_permission_conditions env self with
  | .error e => .error e
  | .ok (baseConds, fetch_shared_docs) =>
    let conditions := baseConds ++ get_permission_query_conditions env self
    let shared_docs := if fetch_shared_docs then env.getShared self.doctype else []
    if !shared_docs.isEmpty then
      let sharedCondition :=
        Predicate.inList (.column self.tableName "name") (shared_docs.map PyVal.s)
      if !conditions.isEmpty then
        .ok (q.where (.orP (.allP conditions) sharedCondition))
      else .ok (q.where sharedCondition)
    else if !conditions.isEmpty then
      .ok (q.where (.allP conditions))
    else .ok q

/-- The select/child-query loop of `apply_fields` (query.py lines
149-156): dynamic fields apply their join and select, child queries are
queued on the builder, anything else is selected directly. -/
def applyFieldsLoop : List ParsedField → Query → Query
  | [], q => q
  | f :: rest, q =>
    match f with
    | .dyn df => applyFieldsLoop rest (df.apply_select q)
    | .child cq => applyFieldsLoop rest { q with childQueries := q.childQueries ++ [cq] }
    | other => applyFieldsLoop rest { q with selects := q.selects ++ [other] }

/-- The parse-then-filter pipeline of `apply_fields` (query.py lines
142-144). -/
def parsed_and_filtered_fields (env : Env) (self : EngineCtx)
    (fields : FieldsArg) : Except PyErr (List ParsedField) :=
  match parse_fields env self fields with
  | .error e => .error e
  | .ok fs =>
    if self.apply_permissions then apply_field_permissions env self fs
    else .ok fs

/-- `Engine.apply_fields(fields)` (query.py lines 141-156): parse and
permission-filter the field list, fall back to the owning table's `name`
column when it is empty, reset the pending child queries and run the
select loop. -/
def apply_fields (env : Env) (self : EngineCtx) (q : Query)
    (fields : FieldsArg) : Except PyErr Query :=
  match parsed_and_filtered_fields env self fields with
  | .error e => .error e
  | .ok fs =>
    let fs := if fs.isEmpty then [ParsedField.field self.tableName "name" Option.none] else fs
    .ok (applyFieldsLoop fs { q with childQueries := [] })

/-- `Engine._validate_group_by(group_by)` (query.py lines 463-478):
comma-split pieces that are non-empty and non-numeric must match the
clause-field pattern, else the build fails with a permission error. -/
def _validate_group_by (group_by : String) : Except PyErr Unit :=
  let parts := (commaSplit group_by).map pyTrim
  if parts.all (fun p => p == "" || isDigitStr p || allowedSqlFieldPattern p) then .ok ()
  else .error .permissionError

/-- One declaration check of `_validate_order_by` (query.py lines
500-520): the field token must be numeric or match the clause-field
pattern (else permission error), and an explicit direction must be
`asc`/`desc` (else value error). -/
def validateOrderDecl (declaration : String) : Except PyErr Unit :=
  match wsTokens (pyTrim declaration) with
  | [] => .ok ()
  | fieldName :: rest =>
    if !(isDigitStr fieldName) && !(allowedSqlFieldPattern fieldName) then
      .error .permissionError
    else
      match rest.head? with
      | Option.none => .ok ()
      | Option.some d =>
        if pyToLower d == "asc" || pyToLower d == "desc" then .ok ()
        else .error .valueError

/-- Short-circuiting check of a declaration list. -/
def validateOrderDecls : List String → Except PyErr Unit
  | [] => .ok ()
  | d :: rest =>
    match validateOrderDecl d with
    | .error e => .error e
    | .ok _ => validateOrderDecls rest

/-- `Engine._validate_order_by(order_by)` (query.py lines 493-520). -/
def _validate_order_by (order_by : String) : Except PyErr Unit :=
  validateOrderDecls (pySplitOn order_by ",")

/-- The per-declaration attach loop of `apply_order_by` (query.py lines
486-491): the first space-separated token is the field, the direction is
ascending exactly when a second token equals `asc` case-insensitively. -/
def orderByDecls (order_by : String) : List (String × Bool) :=
  (pySplitOn order_by ",").filterMap (fun declaration =>
    let d := pyTrim declaration
    if d == "" then Option.none
    else
      let parts := pySplitOn d " "
      let fieldName := parts.headD ""
      let asc :=
        match parts.drop 1 with
        | dir :: _ => pyToLower dir == "asc"
        | [] => false
      Option.some (fieldName, asc))

/-- `Engine.apply_order_by(order_by)` (query.py lines 480-491): skipped
for a falsy argument or the default sentinel; otherwise validate, then
attach every declaration. -/
def apply_order_by (q : Query) (order_by : Option String) :
    Except PyErr Query :=
  match order_by with
  | Option.none => .ok q
  | Option.some ob =>
    if ob == "" || ob == DefaultOrderBy then .ok q
    else
      match _validate_order_by ob with
      | .error e => .error e
      | .ok _ => .ok { q with orderBys := q.orderBys ++ orderByDecls ob }

/-- The keyword arguments of `Engine.get_query` that the claims exercise,
plus the per-build session facts (`user`, database flavour). -/
structure GQArgs where
  fields : FieldsArg
  filters : FiltersArg
  order_by : Option String
  group_by : Option String
  limit : Option Int
  offset : Option Int
  distinct : Bool
  for_update : Bool
  update : Bool
  into : Bool
  delete : Bool
  skip_locked : Bool
  wait : Bool
  ignore_permissions : Bool
  user : String
  parent_doctype : Option String
  is_mariadb : Bool

/-- Default arguments of `get_query` (select mode, permissions ignored). -/
def GQArgs.default : GQArgs :=
  { fields := .none, filters := .none, order_by := Option.none,
    group_by := Option.none, limit := Option.none, offset := Option.none,
    distinct := false, for_update := false, update := false, into := false,
    delete := false, skip_locked := false, wait := true,
    ignore_permissions := true, user := "Administrator",
    parent_doctype := Option.none, is_mariadb := false }

/-- The `table` argument of `get_query`: an entity name or a pre-built
table reference (carrying its physical name). -/
inductive TableArg
  | name (s : String)
  | table (t : String)
deriving DecidableEq, Repr

/-- Build stages recorded while `get_query` runs, used to state the
ordering guarantees: entity-name validation, the entity-level permission
check, field parsing, filter compilation, the order-by/clause stages and
row-permission injection. -/
inductive Event
  | validatedDoctype
  | checkedReadPermission
  | appliedFields
  | appliedFilters
  | appliedOrderBy
  | appliedClauses
  | appliedPermissionConditions
deriving DecidableEq, Repr

/-- A `get_query` run: the stages that were entered, and the outcome. -/
structure GQResult where
  trace : List Event
  result : Except PyErr Query

/-- Enter a stage: record its event and run it (errors halt the chain
before later stages are entered). -/
def stepE (r : GQResult) (ev : Event) (f : Query → Except PyErr Query) :
    GQResult :=
  match r.result with
  | .error e => { trace := r.trace, result := .error e }
  | .ok q => { trace := r.trace ++ [ev], result := f q }

/-- The clause options of `get_query` (query.py lines 111-129): a
non-zero limit/offset must be non-negative (else a type error), then
distinct, locking and the validated group-by are applied. -/
def apply_clauses (args : GQArgs) (q : Query) : Except PyErr Query :=
  let limStep : Except PyErr Query :=
    match args.limit with
    | Option.some l =>
      if l ≠ 0 then
        if l < 0 then .error .typeError else .ok { q with limit := Option.some l }
      else .ok q
    | Option.none => .ok q
  match limStep with
  | .error e => .error e
  | .ok q1 =>
    let offStep : Except PyErr Query :=
      match args.offset with
      | Option.some o =>
        if o ≠ 0 then
          if o < 0 then .error .typeError else .ok { q1 with offset := Option.some o }
        else .ok q1
      | Option.none => .ok q1
    match offStep with
    | .error e => .error e
    | .ok q2 =>
      let q3 := if args.distinct then { q2 with distinct := true } else q2
      let q4 := if args.for_update then
          { q3 with
            forUpdate := true,
            skipLocked := args.skip_locked,
            nowait := !args.wait }
        else q3
      match args.group_by with
      | Option.some g =>
        if g ≠ "" then
          match _validate_group_by g with
          | .error e => .error e
          | .ok _ => .ok { q4 with groupBys := q4.groupBys ++ [g] }
        else .ok q4
      | Option.none => .ok q4

/-- The statement mode chosen by `get_query` (query.py lines 98-106). -/
def gqMode (args : GQArgs) : String :=
  if args.update then "update"
  else if args.into then "insert"
  else if args.delete then "delete"
  else "select"

/-- Field application runs only in select mode (query.py lines 104-106). -/
def gqStageFields (env : Env) (args : GQArgs) (self : EngineCtx)
    (r : GQResult) : GQResult :=
  if gqMode args == "select" then
    stepE r .appliedFields (fun q => apply_fields env self q args.fields)
  else r

/-- Filter compilation stage (query.py line 108). -/
def gqStageFilters (env : Env) (args : GQArgs) (self : EngineCtx)
    (r : GQResult) : GQResult :=
  stepE r .appliedFilters (fun q => apply_filters env self q args.filters)

/-- Order-by stage (query.py line 109). -/
def gqStageOrderBy (args : GQArgs) (r : GQResult) : GQResult :=
  stepE r .appliedOrderBy (fun q => apply_order_by q args.order_by)

/-- Clause-option stage (query.py lines 111-129). -/
def gqStageClauses (args : GQArgs) (r : GQResult) : GQResult :=
  stepE r .appliedClauses (fun q => apply_clauses args q)

/-- Row-permission injection stage, run only under enforcement (query.py
lines 131-132). -/
def gqStagePerms (env : Env) (self : EngineCtx) (r : GQResult) : GQResult :=
  if self.apply_permissions then
    stepE r .appliedPermissionConditions
      (fun q => add_permission_conditions env self q)
  else r

/-- The freeze (query.py line 134): `self.query.immutable = True`. -/
def gqFreeze (r : GQResult) : GQResult :=
  { trace := r.trace,
    result := match r.result with
      | .error e => .error e
      | .ok q => .ok { q with immutable := true } }

/-- The stages of `get_query` after the table is resolved and the
entity-level permission check has passed (query.py lines 98-135): field
application in select mode only, then filters, order-by, clause options,
row-permission injection when enforcement is on, and the freeze. -/
def get_query_main (env : Env) (args : GQArgs) (self : EngineCtx)
    (trace0 : List Event) : GQResult :=
  gqFreeze (gqStagePerms env self (gqStageClauses args (gqStageOrderBy args
    (gqStageFilters env args self (gqStageFields env args self
      { trace := trace0,
        result := .ok (Query.init self.tableName (gqMode args)) })))))

/-- The entity-level permission gate of `get_query` (query.py lines
95-96 together with `check_read_permission`, lines 522-536): when
permission enforcement is requested, the caller must hold `select` or
`read` on the owning entity before any later stage runs. -/
def get_query_after_table (env : Env) (args : GQArgs) (self : EngineCtx)
    (trace0 : List Event) : GQResult :=
  if self.apply_permissions then
    let trace := trace0 ++ [Event.checkedReadPermission]
    if !(env.hasPermission self.doctype "select"
        || env.hasPermission self.doctype "read") then
      { trace := trace, result := .error .permissionError }
    else get_query_main env args self trace
  else get_query_main env args self trace0

/-- `Engine.get_query(table, ...)` (query.py lines 54-135): a pre-built
table reference resolves to its entity name without validation; a string
entity name is validated against `TABLE_NAME_PATTERN` first
(`validate_doctype`, lines 137-139) and an invalid name fails
immediately; then the permission gate and the main stages run. -/
def get_query (env : Env) (args : GQArgs) (table : TableArg) : GQResult :=
  let apply_permissions := !args.ignore_permissions
  let mkSelf := fun (dt : String) =>
    { doctype := dt, parent_doctype := args.parent_doctype,
      user := args.user, apply_permissions := apply_permissions,
      is_mariadb := args.is_mariadb : EngineCtx }
  match table with
  | .table t => get_query_after_table env args (mkSelf (get_doctype_name t)) []
  | .name s =>
    if !(tableNamePattern s) then
      { trace := [Event.validatedDoctype], result := .error .validationError }
    else get_query_after_table env args (mkSelf s) [Event.validatedDoctype]

/-- The name attribute checked by the column-permission filter
(`field.name` of a plain pypika field; empty for the other variants). -/
def parsedFieldName : ParsedField → String
  | .field _ n _ => n
  | _ => ""

/-- Per-variant permission soundness of a filtered field entry: a plain
column's name is permitted on the owning entity, a link-table entry's
link column is permitted on the owning entity, a child-table entry's
column is permitted on its child entity, a surviving child query is
fully initialised with a non-empty permitted sub-field list, and
passthrough pseudo-columns, function terms and criteria carry no
column-permission obligation. -/
def fieldPermitted (env : Env) (self : EngineCtx) : ParsedField → Prop
  | .field _ n _ => n ∈ permittedList env self
  | .dyn (.childTable dt fn pdt _ _) => fn ∈ permittedChildList env dt pdt
  | .dyn (.linkTable _ _ _ lf _) => lf ∈ permittedList env self
  | .child cq => ∃ dt pdt fs fname,
      cq = { fieldname := Option.some fname, fields := Option.some fs,
             parent_doctype := Option.some pdt, doctype := Option.some dt } ∧
      fs ≠ [] ∧ ∀ x ∈ fs, x ∈ permittedChildList env dt pdt
  | .pseudoColumn _ => True
  | .funcTerm _ _ _ => True
  | .criterion _ => True

/-- Fixture: a metadata service with no fields anywhere. -/
def emptyMeta : DocMeta := { fields := [], istable := false }

/-- Fixture: a permissive environment over a `Task` entity whose
permitted fields are `name` and `status`, with no user permissions,
shares, hooks or nested-set rows. -/
def envA : Env :=
  { getMeta := fun _ => emptyMeta,
    hasPermission := fun _ _ => true,
    getPermittedFields := fun _ _ _ => ["name", "status"],
    onlyHasSelectPerm := fun _ => false,
    getRolePermissions := fun _ =>
      { read := true, select := false, has_if_owner_enabled := false,
        if_owner := [] },
    userPermissions := [],
    getShared := fun _ => [],
    hookConditions := fun _ => [],
    serverScriptCondition := fun _ => Option.none,
    strictUserPermissions := false,
    nestedSetRecords := fun _ => [] }

/-- Fixture: the engine context of a `Task` build without permission
enforcement. -/
def selfT : EngineCtx :=
  { doctype := "Task", parent_doctype := Option.none, user := "u",
    apply_permissions := false, is_mariadb := false }

/-- Fixture: the engine context of a `Task` build with permission
enforcement. -/
def selfP : EngineCtx := { selfT with apply_permissions := true }

/-- Fixture: a fresh select query on the `Task` table. -/
def qT : Query := Query.init "tabTask" "select"

/-- Fixture: role permissions that enable owner-only enforcement
(read granted only inside `if_owner`). -/
def rpOwner : RolePerms :=
  { read := true, select := false, has_if_owner_enabled := true,
    if_owner := ["read"] }

/-- Fixture: an environment where owner-only enforcement applies and one
record is shared with the acting user. -/
def envOwner : Env :=
  { envA with
    getRolePermissions := fun _ => rpOwner,
    getShared := fun _ => ["REC-1"] }

/-- Fixture: an environment denying every entity-level permission. -/
def envDeny : Env := { envA with hasPermission := fun _ _ => false }

/-- Fixture: `get_query` arguments requesting permission enforcement. -/
def argsPerm : GQArgs := { GQArgs.default with ignore_permissions := false }

/-- Fixture: a `Task` entity whose `notes` field is a plain `Data` field
(not a child-collection type). -/
def env5 : Env :=
  { envA with
    getMeta := fun _ =>
      { fields := [{ fieldname := "notes", fieldtype := "Data",
                     options := "", ignore_user_permissions := false }],
        istable := false } }

/-- Fixture: the degenerate `ChildQuery` instance produced by the early
`__init__` return. -/
def degenerateChildQuery : ChildQueryObj :=
  { fieldname := Option.none, fields := Option.none,
    parent_doctype := Option.none, doctype := Option.none }

/-- Fixture: an environment whose acting user has a user-permission entry
on `Task` itself restricted by `applicable_for`. -/
def env8 : Env :=
  { envA with
    userPermissions :=
      [("Task", [{ doc := "D1", applicable_for := Option.some "Project" }])] }

/-- Fixture: plain read role permissions (no owner-only enforcement). -/
def rpRead : RolePerms :=
  { read := true, select := false, has_if_owner_enabled := false,
    if_owner := [] }

/-- Fixture: the engine context of a `DT` build used by the hierarchy
claims. -/
def self4 : EngineCtx :=
  { doctype := "DT", parent_doctype := Option.none, user := "u",
    apply_permissions := false, is_mariadb := false }

/-- Fixture: a fresh select query on the `DT` table. -/
def q4 : Query := Query.init "tabDT" "select"

/-- Fixture: the link field of the C7 witness. -/
def c7df : DynField :=
  DynField.linkTable "User" "email" "Task" "assigned_to" Option.none

theorem isJoined_leftJoin_self (q : Query) (t : String) (p : JoinOn) :
    (q.leftJoin t p).isJoined t = true := by
  simp [Query.isJoined, Query.leftJoin]

theorem filter_beq_nil_of_any_false (l : List QJoin) (t : String)
    (h : l.any (fun j => j.target == t) = false) :
    l.filter (fun j => j.target == t) = [] := by
  induction l with
  | nil => rfl
  | cons x xs ih =>
    simp only [List.any_cons, Bool.or_eq_false_iff] at h
    simp [List.filter_cons, h.1, ih h.2]

/-- Claim C7: within one build, applying the same dynamic-field join a
second time is a no-op checked by target-table identity, and (starting
from a query without that target joined) the resulting AST contains
exactly one join clause for the target table — for both child-entity and
linked-entity joins. -/
theorem claim7_join_idempotence (df : DynField) (q : Query) :
    df.apply_join (df.apply_join q) = df.apply_join q ∧
    (q.isJoined df.targetTable = false →
      ((df.apply_join (df.apply_join q)).joins.filter
        (fun j => j.target == df.targetTable)).length = 1) := by
  cases df with
  | childTable dt fn pdt pfn al =>
    constructor
    · by_cases h : q.isJoined (docTypeTable dt)
      · simp [DynField.apply_join, h]
      · simp [DynField.apply_join, h, isJoined_leftJoin_self]
    · intro h
      simp only [DynField.targetTable] at h
      simp only [DynField.apply_join, h, if_neg, Bool.false_eq_true,
        not_false_iff, if_false, isJoined_leftJoin_self, if_true,
        DynField.targetTable]
      have hf := filter_beq_nil_of_any_false q.joins (docTypeTable dt) h
      simp [Query.leftJoin, List.filter_append, hf]
  | linkTable dt fn pdt lf al =>
    constructor
    · by_cases h : q.isJoined (docTypeTable dt)
      · simp [DynField.apply_join, h]
      · simp [DynField.apply_join, h, isJoined_leftJoin_self]
    · intro h
      simp only [DynField.targetTable] at h
      simp only [DynField.apply_join, h, if_neg, Bool.false_eq_true,
        not_false_iff, if_false, isJoined_leftJoin_self, if_true,
        DynField.targetTable]
      have hf := filter_beq_nil_of_any_false q.joins (docTypeTable dt) h
      simp [Query.leftJoin, List.filter_append, hf]

theorem claim7_witness :
    qT.isJoined c7df.targetTable = false ∧
    ((c7df.apply_join (c7df.apply_join qT)).joins.filter
      (fun j => j.target == c7df.targetTable)).length = 1 :=
  ⟨by decide, (claim7_join_idempotence c7df qT).2 (by decide)⟩

/-- Claim C10: in a select-mode build, when field parsing (and, under
permission enforcement, column-permission filtering) leaves the field
list empty, `apply_fields` selects exactly the owning table's `name`
column (and queues no child queries). -/
theorem claim10_empty_fields_fallback (env : Env) (self : EngineCtx)
    (q : Query) (fa : FieldsArg)
    (h : parsed_and_filtered_fields env self fa = .ok []) :
    apply_fields env self q fa =
      .ok { q with
            childQueries := [],
            selects := q.selects ++
              [ParsedField.field self.tableName "name" Option.none] } := by
  unfold apply_fields
  rw [h]
  rfl

theorem claim10_witness :
    parsed_and_filtered_fields envA selfP (.str "secret") = .ok [] ∧
    apply_fields envA selfP qT (.str "secret") =
      .ok { qT with
            childQueries := [],
            selects := [ParsedField.field "tabTask" "name" Option.none] } :=
  ⟨rfl, claim10_empty_fields_fallback envA selfP qT (.str "secret") rfl⟩

/-- Claim C9: a filter whose resolved field is a plain column and whose
normalized value is `None` compiles, under any valid non-nested-set
operator, to an IS-NULL predicate on that column rather than an operator
comparison against null. -/
theorem claim9_null_value_isnull (env : Env) (self : EngineCtx)
    (q q1 : Query) (field : FilterField) (value : PyVal) (op : String)
    (t n : String)
    (hprep : _validate_and_prepare_filter_field env self q field Option.none =
      .ok (q1, .column t n))
    (hv : convert_to_value value = PyVal.none)
    (hns : NESTED_SET_OPERATORS.contains op = false)
    (hop : OPERATOR_MAP_KEYS.contains (pyToLower op) = true) :
    _apply_filter env self q field value op Option.none =
      .ok (q1.where (.isNull (.column t n))) := by
  simp only [convert_to_value] at hv
  subst hv
  have hns2 : op ∉ NESTED_SET_OPERATORS := by simpa using hns
  have hop2 : pyToLower op ∈ OPERATOR_MAP_KEYS := by simpa using hop
  unfold _apply_filter
  rw [hprep]
  simp [applyImplicitChildJoin, isEmptyCollectionVal, convert_to_value,
    hns2, hop2]

theorem claim9_witness :
    convert_to_value PyVal.none = PyVal.none ∧
    NESTED_SET_OPERATORS.contains "=" = false ∧
    _apply_filter envA selfT qT (.str "status") PyVal.none "=" Option.none =
      .ok (qT.where (.isNull (.column "tabTask" "status"))) :=
  ⟨rfl, by decide,
    claim9_null_value_isnull envA selfT qT qT (.str "status") PyVal.none
      "=" "tabTask" "status" rfl rfl (by decide) (by decide)⟩

/-- Claim C5 (code bug): a mapping field specification whose key names a
non-child-collection metadata field does NOT silently produce no entry —
Python's early `return` in `ChildQuery.__init__` still yields an
attribute-less instance, which `_parse_single_field_item` appends to the
parsed field list; under permission enforcement the later
`field.doctype` access then raises `AttributeError` instead of the
claimed silent drop. -/
theorem claim5_nonchild_dict_entry_bug :
    parse_fields env5 selfT
      (.list [.dict [("notes", ChildFieldsVal.fieldsList ["description"])]]) =
      .ok [ParsedField.child degenerateChildQuery] ∧
    ([ParsedField.child degenerateChildQuery] ≠ ([] : List ParsedField)) ∧
    apply_field_permissions env5 selfP [ParsedField.child degenerateChildQuery] =
      .error .attributeError :=
  ⟨rfl, by simp, rfl⟩

/-- Claim C8 (code bug): with role read permission and a non-empty
user-permission map, `get_user_permission_conditions` is meant to mark
the shared-record fallback active and build `IN` / `IS NULL OR IN`
constraints; but a user-permission entry carrying an `applicable_for`
restriction reaches `self.reference_doctype` on the synthetic `name`
link field — an attribute `get_query` never assigns — so the call raises
`AttributeError` instead of returning. -/
theorem claim8_reference_doctype_bug :
    (env8.userPermissions ≠ []) ∧
    rpRead.read = true ∧
    get_user_permission_conditions env8 selfP rpRead =
      .error .attributeError :=
  ⟨by simp [env8, envA], rfl, rfl⟩

/-- Claim C2: when role permissions require the owner constraint, the
injected row-level predicate set contains `owner == acting_user`, the
shared-record fallback is marked active (the share list is consulted and
OR-combined when non-empty), and no user-permission constraints are
added — the conditions are exactly the owner constraint followed by the
hook/script conditions. -/
theorem claim2_owner_only_enforcement (env : Env) (self : EngineCtx)
    (q : Query)
    (h : requires_owner_constraint (env.getRolePermissions self.doctype) = true) :
    base_permission_conditions env self = .ok ([ownerCondition self], true) ∧
    add_permission_conditions env self q =
      .ok (q.where
        (if (env.getShared self.doctype).isEmpty then
          Predicate.allP
            (ownerCondition self :: get_permission_query_conditions env self)
        else
          Predicate.orP
            (.allP (ownerCondition self :: get_permission_query_conditions env self))
            (.inList (.column self.tableName "name")
              ((env.getShared self.doctype).map PyVal.s)))) := by
  have hbase : base_permission_conditions env self = .ok ([ownerCondition self], true) := by
    simp [base_permission_conditions, h]
  refine ⟨hbase, ?_⟩
  unfold add_permission_conditions
  rw [hbase]
  by_cases hsh : (env.getShared self.doctype).isEmpty
  · simp [hsh]
  · simp [hsh]

theorem claim2_witness :
    requires_owner_constraint (envOwner.getRolePermissions selfP.doctype) = true ∧
    base_permission_conditions envOwner selfP = .ok ([ownerCondition selfP], true) ∧
    add_permission_conditions envOwner selfP qT =
      .ok (qT.where
        (Predicate.orP (.allP [ownerCondition selfP])
          (.inList (.column "tabTask" "name") [PyVal.s "REC-1"]))) :=
  ⟨by decide,
   (claim2_owner_only_enforcement envOwner selfP qT (by decide)).1,
   (claim2_owner_only_enforcement envOwner selfP qT (by decide)).2⟩

theorem filter_nsBoundsDesc_none (l : List NSRecord) :
    l.filter (nsBoundsDesc Option.none) = [] := by
  induction l with
  | nil => rfl
  | cons x xs ih => simp [List.filter_cons, nsBoundsDesc, ih]

theorem filter_nsBoundsAnc_none (l : List NSRecord) :
    l.filter (nsBoundsAnc Option.none) = [] := by
  induction l with
  | nil => rfl
  | cons x xs ih => simp [List.filter_cons, nsBoundsAnc, ih]

theorem prepare_plain_field (env : Env) (self : EngineCtx) (q : Query)
    (s : String) (hs : specialCharSearch s = false) :
    _validate_and_prepare_filter_field env self q (.str s) Option.none =
      .ok (q, .column (docTypeTable self.doctype) s) := by
  unfold _validate_and_prepare_filter_field
  simp [hs]

/-- Claim C4 (counterexample): on an absent reference node,
`descendants of (inclusive)` does NOT compute an empty node set and does
NOT attach `IN ('')` — the code appends the reference name to the empty
query result, so the node set is the singleton of the absent name and
the predicate is `IN (name)`. -/
theorem claim4_counterexample :
    get_nested_set_hierarchy_result envA "DT" (.s "X")
        "descendants of (inclusive)" = [PyVal.s "X"] ∧
    ([PyVal.s "X"] ≠ ([] : List PyVal)) ∧
    _apply_filter envA self4 q4 (.str "grp") (.s "X")
        "descendants of (inclusive)" Option.none =
      .ok (q4.where (.inList (.column "tabDT" "grp") [PyVal.s "X"])) ∧
    Predicate.inList (.column "tabDT" "grp") [PyVal.s "X"] ≠
      Predicate.inList (.column "tabDT" "grp") [PyVal.s ""] :=
  ⟨rfl, by simp, rfl, by simp⟩

/-- Claim C4 (amended): on an absent reference node the four
non-inclusive hierarchy operators compute an empty node set and attach
the well-formed `IN ('')` (or `NOT IN ('')`) predicate, and the build
does not fail; `descendants of (inclusive)` instead computes the
singleton node set containing the absent reference name and attaches
`IN (name)` — which likewise matches no stored row, since no row bears
that name. -/
theorem claim4_amended (env : Env) (self : EngineCtx) (q : Query)
    (s dn : String)
    (hs : specialCharSearch s = false)
    (habs : (env.nestedSetRecords (hierarchyRefDoctype env self s)).find?
      (nsNameMatches (PyVal.s dn)) = Option.none) :
    (∀ op ∈ (["descendants of", "ancestors of", "not descendants of",
        "not ancestors of"] : List String),
      get_nested_set_hierarchy_result env (hierarchyRefDoctype env self s)
          (.s dn) op = [] ∧
      _apply_filter env self q (.str s) (.s dn) op Option.none =
        .ok (q.where
          (if op == "not ancestors of" || op == "not descendants of" then
            Predicate.notInList (.column (docTypeTable self.doctype) s)
              [PyVal.s ""]
          else
            Predicate.inList (.column (docTypeTable self.doctype) s)
              [PyVal.s ""]))) ∧
    (get_nested_set_hierarchy_result env (hierarchyRefDoctype env self s)
        (.s dn) "descendants of (inclusive)" = [PyVal.s dn] ∧
      _apply_filter env self q (.str s) (.s dn) "descendants of (inclusive)"
          Option.none =
        .ok (q.where (.inList (.column (docTypeTable self.doctype) s)
          [PyVal.s dn])) ∧
      ∀ r ∈ env.nestedSetRecords (hierarchyRefDoctype env self s),
        r.name ≠ dn) := by
  have hprep := prepare_plain_field env self q s hs
  have hdesc : get_nested_set_hierarchy_result env
      (hierarchyRefDoctype env self s) (.s dn) "descendants of" = [] := by
    simp [get_nested_set_hierarchy_result, habs, filter_nsBoundsDesc_none,
      sortNSBy]
  have hanc : get_nested_set_hierarchy_result env
      (hierarchyRefDoctype env self s) (.s dn) "ancestors of" = [] := by
    simp [get_nested_set_hierarchy_result, habs, filter_nsBoundsAnc_none,
      sortNSBy]
  have hndesc : get_nested_set_hierarchy_result env
      (hierarchyRefDoctype env self s) (.s dn) "not descendants of" = [] := by
    simp [get_nested_set_hierarchy_result, habs, filter_nsBoundsDesc_none,
      sortNSBy]
  have hnanc : get_nested_set_hierarchy_result env
      (hierarchyRefDoctype env self s) (.s dn) "not ancestors of" = [] := by
    simp [get_nested_set_hierarchy_result, habs, filter_nsBoundsAnc_none,
      sortNSBy]
  have hincl : get_nested_set_hierarchy_result env
      (hierarchyRefDoctype env self s) (.s dn) "descendants of (inclusive)" =
      [PyVal.s dn] := by
    simp [get_nested_set_hierarchy_result, habs, filter_nsBoundsDesc_none,
      sortNSBy]
  refine ⟨?_, hincl, ?_, ?_⟩
  · intro op hop
    fin_cases hop
    · refine ⟨hdesc, ?_⟩
      unfold _apply_filter
      rw [hprep]
      simp [applyImplicitChildJoin, convert_to_value, isEmptyCollectionVal,
        NESTED_SET_OPERATORS, hdesc]
    · refine ⟨hanc, ?_⟩
      unfold _apply_filter
      rw [hprep]
      simp [applyImplicitChildJoin, convert_to_value, isEmptyCollectionVal,
        NESTED_SET_OPERATORS, hanc]
    · refine ⟨hndesc, ?_⟩
      unfold _apply_filter
      rw [hprep]
      simp [applyImplicitChildJoin, convert_to_value, isEmptyCollectionVal,
        NESTED_SET_OPERATORS, hndesc]
    · refine ⟨hnanc, ?_⟩
      unfold _apply_filter
      rw [hprep]
      simp [applyImplicitChildJoin, convert_to_value, isEmptyCollectionVal,
        NESTED_SET_OPERATORS, hnanc]
  · unfold _apply_filter
    rw [hprep]
    simp [applyImplicitChildJoin, convert_to_value, isEmptyCollectionVal,
      NESTED_SET_OPERATORS, hincl]
  · intro r hr
    have hne := List.find?_eq_none.mp habs r hr
    simpa [nsNameMatches] using hne

theorem claim4_witness :
    specialCharSearch "grp" = false ∧
    (envA.nestedSetRecords (hierarchyRefDoctype envA self4 "grp")).find?
      (nsNameMatches (PyVal.s "X")) = Option.none ∧
    get_nested_set_hierarchy_result envA (hierarchyRefDoctype envA self4 "grp")
      (.s "X") "descendants of" = [] ∧
    _apply_filter envA self4 q4 (.str "grp") (.s "X") "descendants of"
        Option.none =
      .ok (q4.where (.inList (.column "tabDT" "grp") [PyVal.s ""])) ∧
    get_nested_set_hierarchy_result envA (hierarchyRefDoctype envA self4 "grp")
      (.s "X") "descendants of (inclusive)" = [PyVal.s "X"] :=
  ⟨by decide, rfl,
   ((claim4_amended envA self4 q4 "grp" "X" (by decide) rfl).1
     "descendants of" (by simp)).1,
   ((claim4_amended envA self4 q4 "grp" "X" (by decide) rfl).1
     "descendants of" (by simp)).2,
   (claim4_amended envA self4 q4 "grp" "X" (by decide) rfl).2.1⟩

/-- Claim C1 (counterexample): the filter field string `a;b.c` contains
special characters, is not resolved by the dynamic-field grammar and
does not match the clause-field validation pattern, yet the build fails
with `AttributeError` (the dotted grammar dereferences a missing
metadata field), not with the claimed permission error. -/
theorem claim1_counterexample :
    specialCharSearch "a;b.c" = true ∧
    dynamicFieldParse envA "a;b.c" "Task" = .error .attributeError ∧
    allowedSqlFieldPattern "a;b.c" = false ∧
    _validate_and_prepare_filter_field envA selfT qT (.str "a;b.c")
      Option.none = .error .attributeError ∧
    PyErr.attributeError ≠ PyErr.permissionError :=
  ⟨by decide, rfl, by decide, rfl, by decide⟩

/-- Claim C1 (amended): a filter field string containing a character
outside the plain-identifier alphabet is either resolved through the
dynamic-field grammar (its join applied, its resolved column taken), or
accepted under the clause-field validation pattern (becoming a wrapped
column reference, never a raw predicate), or the build fails — with a
permission error when the dynamic-field parser cleanly declines, and
with the parser's own attribute/value error when the dotted grammar
fails mid-parse. -/
theorem claim1_amended (env : Env) (self : EngineCtx) (q : Query)
    (s : String) (h : specialCharSearch s = true) :
    (∃ df, dynamicFieldParse env s self.doctype = .ok (Option.some df) ∧
      _validate_and_prepare_filter_field env self q (.str s) Option.none =
        .ok (df.apply_join q, df.fieldExpr)) ∨
    (allowedSqlFieldPattern s = true ∧
      _validate_and_prepare_filter_field env self q (.str s) Option.none =
        .ok (q, .column (docTypeTable self.doctype) s)) ∨
    (∃ e, _validate_and_prepare_filter_field env self q (.str s)
        Option.none = .error e ∧
      ((e = .permissionError ∧
        dynamicFieldParse env s self.doctype = .ok Option.none ∧
        allowedSqlFieldPattern s = false) ∨
       dynamicFieldParse env s self.doctype = .error e)) := by
  have hred : _validate_and_prepare_filter_field env self q (.str s)
      Option.none =
      (if specialCharSearch s = true then
        match dynamicFieldParse env s self.doctype with
        | .error e => .error e
        | .ok (Option.some df) => .ok (df.apply_join q, df.fieldExpr)
        | .ok Option.none =>
          if allowedSqlFieldPattern s = true then
            .ok (q, .column (docTypeTable self.doctype) s)
          else .error .permissionError
      else .ok (q, .column (docTypeTable self.doctype) s)) := rfl
  rw [hred, h]
  simp only [if_true]
  cases hp : dynamicFieldParse env s self.doctype with
  | error e =>
    exact Or.inr (Or.inr ⟨e, rfl, Or.inr rfl⟩)
  | ok odf =>
    cases odf with
    | some df =>
      exact Or.inl ⟨df, rfl, rfl⟩
    | none =>
      by_cases hpat : allowedSqlFieldPattern s
      · exact Or.inr (Or.inl ⟨hpat, by simp [hpat]⟩)
      · refine Or.inr (Or.inr ⟨.permissionError, ?_, Or.inl ⟨rfl, rfl, ?_⟩⟩)
        · simp [hpat]
        · simpa using hpat

theorem claim1_witness :
    specialCharSearch "`x`" = true ∧
    ((∃ df, dynamicFieldParse envA "`x`" selfT.doctype = .ok (Option.some df) ∧
      _validate_and_prepare_filter_field envA selfT qT (.str "`x`")
        Option.none = .ok (df.apply_join qT, df.fieldExpr)) ∨
    (allowedSqlFieldPattern "`x`" = true ∧
      _validate_and_prepare_filter_field envA selfT qT (.str "`x`")
        Option.none = .ok (qT, .column (docTypeTable selfT.doctype) "`x`")) ∨
    (∃ e, _validate_and_prepare_filter_field envA selfT qT (.str "`x`")
        Option.none = .error e ∧
      ((e = .permissionError ∧
        dynamicFieldParse envA "`x`" selfT.doctype = .ok Option.none ∧
        allowedSqlFieldPattern "`x`" = false) ∨
       dynamicFieldParse envA "`x`" selfT.doctype = .error e))) :=
  ⟨by decide, claim1_amended envA selfT qT "`x`" (by decide)⟩

theorem afp_one_sound (env : Env) (self : EngineCtx) (f : ParsedField)
    (head : List ParsedField)
    (hparse : parse_fields env self
        (.list (((permittedList env self).dedup).map FieldSpec.str)) =
      .ok (((permittedList env self).dedup).map
        (fun n => ParsedField.field self.tableName n Option.none)))
    (h : apply_field_permissions_one env self (permittedList env self) f =
      .ok head) :
    ∀ g ∈ head, fieldPermitted env self g := by
  cases f with
  | field t n al =>
    by_cases hn : n == "*"
    · rw [apply_field_permissions_one, if_pos hn, hparse] at h
      injection h with h2
      subst h2
      intro g hg
      obtain ⟨m, hm, rfl⟩ := List.mem_map.mp hg
      simpa [fieldPermitted] using List.mem_dedup.mp hm
    · rw [apply_field_permissions_one, if_neg hn] at h
      by_cases hc : (permittedList env self).contains n
      · rw [if_pos hc] at h
        injection h with h2
        subst h2
        intro g hg
        rw [List.mem_singleton] at hg
        subst hg
        simpa [fieldPermitted] using List.mem_of_elem_eq_true hc
      · rw [if_neg hc] at h
        injection h with h2
        subst h2
        intro g hg
        cases hg
  | funcTerm nm args al =>
    injection h with h2
    subst h2
    intro g hg
    cases hg
  | criterion c =>
    injection h with h2
    subst h2
    intro g hg
    cases hg
  | pseudoColumn c =>
    injection h with h2
    subst h2
    intro g hg
    rw [List.mem_singleton] at hg
    subst hg
    trivial
  | dyn df =>
    cases df with
    | childTable dt fn pdt pfn al =>
      rw [apply_field_permissions_one] at h
      by_cases hc : (permittedChildList env dt pdt).contains fn
      · rw [if_pos hc] at h
        injection h with h2
        subst h2
        intro g hg
        rw [List.mem_singleton] at hg
        subst hg
        simpa [fieldPermitted] using List.mem_of_elem_eq_true hc
      · rw [if_neg hc] at h
        injection h with h2
        subst h2
        intro g hg
        cases hg
    | linkTable dt fn pdt lf al =>
      rw [apply_field_permissions_one] at h
      by_cases hc : (permittedList env self).contains lf
      · rw [if_pos hc] at h
        injection h with h2
        subst h2
        intro g hg
        rw [List.mem_singleton] at hg
        subst hg
        simpa [fieldPermitted] using List.mem_of_elem_eq_true hc
      · rw [if_neg hc] at h
        injection h with h2
        subst h2
        intro g hg
        cases hg
  | child cq =>
    obtain ⟨fn, fs, pdt, dt⟩ := cq
    cases dt with
    | none => exact absurd h (by simp [apply_field_permissions_one])
    | some dtv =>
      cases pdt with
      | none => exact absurd h (by simp [apply_field_permissions_one])
      | some pdtv =>
        cases fs with
        | none => exact absurd h (by simp [apply_field_permissions_one])
        | some fsv =>
          cases fn with
          | none => exact absurd h (by simp [apply_field_permissions_one])
          | some fnv =>
            rw [apply_field_permissions_one] at h
            dsimp only at h
            by_cases he :
                (fsv.filter
                  (fun x => (permittedChildList env dtv pdtv).contains x)).isEmpty
            · rw [if_pos he] at h
              injection h with h2
              subst h2
              intro g hg
              cases hg
            · rw [if_neg he] at h
              injection h with h2
              subst h2
              intro g hg
              rw [List.mem_singleton] at hg
              subst hg
              refine ⟨dtv, pdtv,
                fsv.filter (fun x => (permittedChildList env dtv pdtv).contains x),
                fnv, rfl, ?_, ?_⟩
              · intro hnil
                rw [hnil] at he
                exact he rfl
              · intro x hx
                have hmem := List.of_mem_filter hx
                exact List.mem_of_elem_eq_true hmem

theorem afp_go_sound (env : Env) (self : EngineCtx)
    (hparse : parse_fields env self
        (.list (((permittedList env self).dedup).map FieldSpec.str)) =
      .ok (((permittedList env self).dedup).map
        (fun n => ParsedField.field self.tableName n Option.none)))
    (fields : List ParsedField) :
    ∀ out, apply_field_permissions_go env self (permittedList env self)
        fields = .ok out →
      ∀ g ∈ out, fieldPermitted env self g := by
  induction fields with
  | nil =>
    intro out h
    rw [apply_field_permissions_go] at h
    injection h with h2
    subst h2
    intro g hg
    cases hg
  | cons f rest ih =>
    intro out h
    rw [apply_field_permissions_go] at h
    cases h1 : apply_field_permissions_one env self (permittedList env self) f with
    | error e => rw [h1] at h; cases h
    | ok head =>
      rw [h1] at h
      cases h2 : apply_field_permissions_go env self (permittedList env self)
          rest with
      | error e => rw [h2] at h; cases h
      | ok tail =>
        rw [h2] at h
        injection h with h3
        subst h3
        intro g hg
        rcases List.mem_append.mp hg with hg1 | hg2
        · exact afp_one_sound env self f head hparse h1 g hg1
        · exact ih tail h2 g hg2

/-- Claim C3: under permission enforcement in select mode, every entry of
the permission-filtered field list is permitted — plain columns and
link-field link columns on the owning entity, child-table columns and
surviving child-query sub-fields on the respective child entity — and a
requested bare `*` expands to exactly the permitted-field set of the
owning entity (order-insensitive set equality). The hypothesis states
that each permitted field name parses back to the plain column of the
same name (the well-formedness of the collaborator's permitted-field
names that the source's `parse_fields(list(permitted_fields_set))` round
trip relies on). -/
theorem claim3_column_permission_monotonic (env : Env) (self : EngineCtx)
    (hparse : parse_fields env self
        (.list (((permittedList env self).dedup).map FieldSpec.str)) =
      .ok (((permittedList env self).dedup).map
        (fun n => ParsedField.field self.tableName n Option.none))) :
    (∀ fields out, apply_field_permissions env self fields = .ok out →
      ∀ g ∈ out, fieldPermitted env self g) ∧
    (∀ t out, apply_field_permissions env self
        [ParsedField.field t "*" Option.none] = .ok out →
      (out.map parsedFieldName).toFinset =
        (permittedList env self).toFinset) := by
  constructor
  · intro fields out h
    exact afp_go_sound env self hparse fields out h
  · intro t out h
    rw [apply_field_permissions, apply_field_permissions_go] at h
    have hone : apply_field_permissions_one env self (permittedList env self)
        (ParsedField.field t "*" Option.none) =
        .ok (((permittedList env self).dedup).map
          (fun n => ParsedField.field self.tableName n Option.none)) := by
      rw [apply_field_permissions_one]
      simp [hparse]
    rw [hone] at h
    rw [apply_field_permissions_go] at h
    injection h with h2
    subst h2
    rw [List.append_nil, List.map_map]
    have hcomp : (parsedFieldName ∘ fun n =>
        ParsedField.field self.tableName n Option.none) = id := by
      funext n
      rfl
    rw [hcomp, List.map_id]
    apply Finset.ext
    intro x
    simp [List.mem_toFinset, List.mem_dedup]

theorem claim3_witness :
    parse_fields envA selfP
        (.list ((["name", "status"] : List String).map FieldSpec.str)) =
      .ok [ParsedField.field "tabTask" "name" Option.none,
           ParsedField.field "tabTask" "status" Option.none] ∧
    (([ParsedField.field "tabTask" "name" Option.none,
       ParsedField.field "tabTask" "status" Option.none].map
        parsedFieldName).toFinset = (permittedList envA selfP).toFinset) ∧
    (∀ g ∈ [ParsedField.field "tabTask" "name" Option.none,
            ParsedField.field "tabTask" "status" Option.none],
      fieldPermitted envA selfP g) :=
  ⟨rfl,
   (claim3_column_permission_monotonic envA selfP rfl).2 "tabTask"
     [ParsedField.field "tabTask" "name" Option.none,
      ParsedField.field "tabTask" "status" Option.none] rfl,
   (claim3_column_permission_monotonic envA selfP rfl).1
     [ParsedField.field "tabTask" "*" Option.none]
     [ParsedField.field "tabTask" "name" Option.none,
      ParsedField.field "tabTask" "status" Option.none] rfl⟩

theorem stepE_trace_ext (r : GQResult) (ev : Event)
    (f : Query → Except PyErr Query) :
    ∃ u, (stepE r ev f).trace = r.trace ++ u := by
  obtain ⟨tr, res⟩ := r
  cases res with
  | error e => exact ⟨[], by simp [stepE]⟩
  | ok q => exact ⟨[ev], rfl⟩

theorem gqStageFields_trace_ext (env : Env) (args : GQArgs)
    (self : EngineCtx) (r : GQResult) :
    ∃ u, (gqStageFields env args self r).trace = r.trace ++ u := by
  rw [gqStageFields]
  by_cases h : gqMode args == "select"
  · rw [if_pos h]
    exact stepE_trace_ext r _ _
  · rw [if_neg h]
    exact ⟨[], by simp⟩

theorem gqStagePerms_trace_ext (env : Env) (self : EngineCtx)
    (r : GQResult) :
    ∃ u, (gqStagePerms env self r).trace = r.trace ++ u := by
  rw [gqStagePerms]
  by_cases h : self.apply_permissions
  · rw [if_pos h]
    exact stepE_trace_ext r _ _
  · rw [if_neg h]
    exact ⟨[], by simp⟩

theorem get_query_main_trace_ext (env : Env) (args : GQArgs)
    (self : EngineCtx) (t0 : List Event) :
    ∃ u, (get_query_main env args self t0).trace = t0 ++ u := by
  rw [get_query_main]
  obtain ⟨u1, h1⟩ := gqStageFields_trace_ext env args self
    { trace := t0, result := .ok (Query.init self.tableName (gqMode args)) }
  obtain ⟨u2, h2⟩ := stepE_trace_ext (gqStageFields env args self
    { trace := t0, result := .ok (Query.init self.tableName (gqMode args)) })
    .appliedFilters (fun q => apply_filters env self q args.filters)
  obtain ⟨u3, h3⟩ := stepE_trace_ext (gqStageFilters env args self
    (gqStageFields env args self
      { trace := t0, result := .ok (Query.init self.tableName (gqMode args)) }))
    .appliedOrderBy (fun q => apply_order_by q args.order_by)
  obtain ⟨u4, h4⟩ := stepE_trace_ext (gqStageOrderBy args
    (gqStageFilters env args self (gqStageFields env args self
      { trace := t0, result := .ok (Query.init self.tableName (gqMode args)) })))
    .appliedClauses (fun q => apply_clauses args q)
  obtain ⟨u5, h5⟩ := gqStagePerms_trace_ext env self (gqStageClauses args
    (gqStageOrderBy args (gqStageFilters env args self (gqStageFields env args
      self { trace := t0,
             result := .ok (Query.init self.tableName (gqMode args)) }))))
  refine ⟨u1 ++ u2 ++ u3 ++ u4 ++ u5, ?_⟩
  show (gqStagePerms env self _).trace = _
  rw [h5]
  show (gqStageClauses args _).trace ++ u5 = _
  rw [gqStageClauses, h4]
  show (gqStageOrderBy args _).trace ++ u4 ++ u5 = _
  rw [gqStageOrderBy, h3]
  show (gqStageFilters env args self _).trace ++ u3 ++ u4 ++ u5 = _
  rw [gqStageFilters, h2, h1]
  simp [List.append_assoc]

/-- Claim C6: for a string entity name, validation against the
identifier pattern happens before the entity-level permission check — an
invalid name fails with only the validation stage entered, for every
environment and argument set — and under permission enforcement the
entity-level select/read check happens before any field or filter
parsing: an unauthorized caller fails with exactly the validation and
permission stages entered (no field or filter stage), and in every
enforced build the first two stages entered are validation then the
permission check. -/
theorem claim6_validation_before_permissions (env : Env) (args : GQArgs)
    (s : String) :
    (tableNamePattern s = false →
      get_query env args (.name s) =
        { trace := [Event.validatedDoctype],
          result := .error .validationError }) ∧
    (tableNamePattern s = true → args.ignore_permissions = false →
      (env.hasPermission s "select" = false →
        env.hasPermission s "read" = false →
        get_query env args (.name s) =
          { trace := [Event.validatedDoctype, Event.checkedReadPermission],
            result := .error .permissionError }) ∧
      (get_query env args (.name s)).trace.take 2 =
        [Event.validatedDoctype, Event.checkedReadPermission]) := by
  constructor
  · intro hbad
    rw [get_query, hbad]
    rfl
  · intro hgood hperm
    have hself : (!args.ignore_permissions) = true := by rw [hperm]; rfl
    constructor
    · intro hsel hread
      rw [get_query, hgood]
      simp only [Bool.not_false, if_true]
      rw [get_query_after_table]
      simp only [hself, if_true]
      rw [hsel, hread]
      rfl
    · rw [get_query, hgood]
      simp only [Bool.not_false, if_true]
      rw [get_query_after_table]
      simp only [hself, if_true]
      by_cases hp : env.hasPermission s "select" || env.hasPermission s "read"
      · simp only [hp, Bool.not_true, Bool.false_eq_true, if_false]
        obtain ⟨u, hu⟩ := get_query_main_trace_ext env args
          { doctype := s, parent_doctype := args.parent_doctype,
            user := args.user, apply_permissions := !args.ignore_permissions,
            is_mariadb := args.is_mariadb }
          ([Event.validatedDoctype] ++ [Event.checkedReadPermission])
        rw [hself] at hu
        rw [hu]
        rfl
      · simp only [hp, Bool.not_false, if_true]
        rfl

theorem claim6_witness :
    tableNamePattern "x;y" = false ∧
    get_query envA GQArgs.default (.name "x;y") =
      { trace := [Event.validatedDoctype],
        result := .error .validationError } ∧
    get_query envDeny argsPerm (.name "Note") =
      { trace := [Event.validatedDoctype, Event.checkedReadPermission],
        result := .error .permissionError } :=
  ⟨by decide,
   (claim6_validation_before_permissions envA GQArgs.default "x;y").1
     (by decide),
   ((claim6_validation_before_permissions envDeny argsPerm "Note").2
     (by decide) rfl).1 rfl rfl⟩
